import Mathlib

/-!
Verification development for the cytoskeleton-analyser history core
(pattern matching over filament event streams, occurrence sets, the
union algebra and the cycle statistics of
`cytoskeleton_analyser/history`).

Modelling conventions.

* Machine floats are modelled by `ℚ`.  A float that may be `NaN` is
  modelled by `Option ℚ` (`none` = `NaN`); `numpy` arithmetic on `NaN`
  propagates `none`.
* `numpy` arrays are modelled by Lean lists; fancy indexing by a
  boolean mask is `maskFilter`; `np.hstack`/`np.vstack` of two data
  arrays is list append.
* A standard deviation produced by `np.std` (or by the pooled-deviation
  formula of `report_cycle_correlated`) is carried as its square
  (the variance): the square root is not rational, and `x ↦ √x` is a
  strictly monotone bijection on nonnegatives, so equalities between
  standard deviations correspond exactly to equalities between the
  squares carried here.
* The reorientation angle `arccos(clip(dot, -1, 1))·180/π` stored in
  `dornt` is represented by the clipped dot product itself: the
  `arccos` transform is a fixed injective map not expressible in `ℚ`,
  and no claim depends on the pointwise value of a `dornt` entry, only
  on the positional structure of the array.
* Attributes that exist only when the class-level configuration
  `PARAMS['history_version'] == 2` holds (`ngrw`, `nshr`, `dngrw`,
  `dnshr`, `dornt` on state sequences; `ornt`, `ngrw`, `nshr` on
  filament histories) are modelled as list fields that are empty (and
  never touched) when the `v2` flag is false; `vars(self)`-driven loops
  of the Python code skip absent attributes, and every list operation
  used there is the identity on the empty list, so the two views agree.
  Accessing such an attribute under version 1 raises `AttributeError`
  in Python; where a claim is about that behaviour the accessor is
  embedded with `Except` (see `StateSeq.reorientation`).
-/

namespace Cyto

/-- Row of a 3-column numpy array (`pos`, `ornt`). -/
abbrev Vec3 : Type := ℚ × ℚ × ℚ

/-- Row of the 6-column `cas` field-intensity array. -/
abbrev Cas : Type := List ℚ

/-- Dot product of two `Vec3` rows. -/
def dot3 (a b : Vec3) : ℚ :=
  a.1 * b.1 + a.2.1 * b.2.1 + a.2.2 * b.2.2

/-- Value of `np.clip(x, lo, hi)`. -/
def clip (x lo hi : ℚ) : ℚ := max lo (min x hi)

/-- Stand-in for the reorientation angle
`arccos(clip(dot(o_to, o_fr), -1, 1)) / π * 180` of
`_StateSequence.append`; see the module docstring for why the clipped
dot product represents the angle. -/
def dorntVal (oTo oFr : Vec3) : ℚ := clip (dot3 oTo oFr) (-1) 1

/-- Fancy indexing of a numpy array `l` by a boolean mask `mask`
(`l[np.where(mask)[0]]`): keep the entries at positions where the mask
is true. -/
def maskFilter (mask : List Bool) (l : List α) : List α :=
  ((mask.zip l).filter (fun p => p.1)).map (fun p => p.2)

/-- Mean of a list of rationals (`np.mean`); meaningful only for a
nonempty list. -/
def listMean (l : List ℚ) : ℚ := l.sum / (l.length : ℚ)

/-- Square of `np.std` of a list of rationals: the population variance
(mean of squared deviations from the mean). -/
def listVar (l : List ℚ) : ℚ :=
  ((l.map (fun x => (x - listMean l) ^ 2)).sum) / (l.length : ℚ)

/-- Mean as an `Option`: `none` models the `NaN` produced by `np.mean`
on an empty array. -/
def listMeanO (l : List ℚ) : Option ℚ :=
  if l = [] then none else some (listMean l)

/-- `np.mean` of an integer array is a float: the mean of the entries
cast to `ℚ`. -/
def listMeanZ (l : List ℤ) : ℚ :=
  listMean (l.map (fun z : ℤ => (z : ℚ)))

/-- `listMeanZ` as an `Option`, `none` on an empty array. -/
def listMeanOZ (l : List ℤ) : Option ℚ :=
  listMeanO (l.map (fun z : ℤ => (z : ℚ)))

namespace StateTypes

/-- `StateTypes.O` (undefined). -/
def O : ℤ := -1
/-- `StateTypes.G` (growing). -/
def G : ℤ := 0
/-- `StateTypes.S` (shrinking). -/
def S : ℤ := 1
/-- `StateTypes.P` (paused). -/
def P : ℤ := 2
/-- `StateTypes.C` (connected). -/
def C : ℤ := 3
/-- `StateTypes.D` (depolymerized). -/
def D : ℤ := 4

/-- Lookup `cls.__dict__[s.upper()]` of `StateTypes.from_str` for one
character: the state code for a state letter, `none` when the letter is
not an enumerated state (the Python code raises `KeyError` there; the
only single-character keys of the class dictionary are the six state
letters). -/
def fromChar (c : Char) : Option ℤ :=
  let u := c.toUpper
  if u = 'O' then some O
  else if u = 'G' then some G
  else if u = 'S' then some S
  else if u = 'P' then some P
  else if u = 'C' then some C
  else if u = 'D' then some D
  else none

/-- `StateTypes.from_str`: map every character of the pattern string to
its state code; `none` models the `KeyError` raised on the first
unknown letter. -/
def fromStr (s : String) : Option (List ℤ) :=
  s.data.mapM fromChar

end StateTypes

/-- One filament event stream (`FilamentHistory`), one instance per
filament end.  Fields are the instance arrays created in
`FilamentHistory.__init__`; `ornt`, `ngrw`, `nshr` exist only for
record-format version 2 and are `[]` otherwise.  `dist0` is derived at
load time from `pos`, never read from storage. -/
structure FilamentHistory where
  time : List ℚ
  state_fr : List ℤ
  state_to : List ℤ
  pos : List Vec3
  ornt : List Vec3
  length : List ℤ
  age : List ℚ
  ngrw : List ℤ
  nshr : List ℤ
  cas : List Cas
  dist_plm : List ℚ
  dist_nuc : List ℚ
  dist0 : List ℚ
deriving DecidableEq, Inhabited

/-- Schema invariant of a filament event stream (spec §3: all arrays
share one length per stream); the version-2 arrays participate only
when the run-wide version flag `v2` is set, and are absent (empty)
otherwise. -/
def FilamentHistory.Wf (v2 : Bool) (f : FilamentHistory) : Prop :=
  f.state_fr.length = f.time.length ∧
  f.state_to.length = f.time.length ∧
  f.pos.length = f.time.length ∧
  f.length.length = f.time.length ∧
  f.age.length = f.time.length ∧
  f.cas.length = f.time.length ∧
  f.dist_plm.length = f.time.length ∧
  f.dist_nuc.length = f.time.length ∧
  f.dist0.length = f.time.length ∧
  (v2 = true → f.ornt.length = f.time.length ∧
    f.ngrw.length = f.time.length ∧ f.nshr.length = f.time.length) ∧
  (v2 = false → f.ornt = [] ∧ f.ngrw = [] ∧ f.nshr = [])

instance (v2 : Bool) (f : FilamentHistory) : Decidable (f.Wf v2) := by
  unfold FilamentHistory.Wf; infer_instance

/-- Accumulated occurrence set (`_StateSequence` data arrays).  The
fields are the per-occurrence data arrays created in
`_StateSequence.__init__`, in their `vars(self)` order; the five
version-2 arrays are empty when the run version is 1 (they are then
absent from the Python instance).  The lazily cached `_duration`,
`_elongation`, `_reorientation`, `_velocity` statistics are not state:
the cache is write-once from the data arrays, so the getters are
modelled as functions (`StateSeq.duration` etc.). -/
structure StateSeq where
  fi : List ℕ
  inds : List ℕ
  ngrw : List ℤ
  nshr : List ℤ
  dngrw : List ℤ
  dnshr : List ℤ
  dornt : List ℚ
  dlen : List ℤ
  dlen_um : List ℚ
  dtime : List ℚ
  vel : List ℚ
  length : List ℤ
  time : List ℚ
  pos_fr : List Vec3
  pos_to : List Vec3
  dist0_fr : List ℚ
  dist0_to : List ℚ
  dist_plm : List ℚ
  dist_nuc : List ℚ
  cas : List Cas
deriving DecidableEq, Inhabited

namespace StateSeq

/-- Freshly constructed occurrence set (`_StateSequence.__init__`):
every data array empty. -/
def empty : StateSeq :=
  ⟨[], [], [], [], [], [], [], [], [], [], [], [], [], [], [], [], [],
   [], [], []⟩

/-- `_StateSequence.num`: the occurrence count, `len(self.time)`. -/
def num (s : StateSeq) : ℕ := s.time.length

/-- `_StateSequence.append`: append the occurrences of stream `r` at
indices `ii` (filament index `j`, pattern width `w`, class-level
configuration `v2 = (PARAMS['history_version'] == 2)` and
`edge_len = PARAMS['edge_len']`).  Every formula is the numpy
expression of the source, evaluated per index; the `vel` safe divide is
`np.divide(dlen_um, dtime, out=zeros, where=dtime != 0) * 60`. -/
def append (v2 : Bool) (edge_len : ℚ) (s : StateSeq)
    (r : FilamentHistory) (ii : List ℕ) (j : ℕ) (w : ℕ) : StateSeq :=
  { inds := s.inds ++ ii
    fi := s.fi ++ ii.map (fun _ => j)
    ngrw := if v2 then s.ngrw ++ ii.map (fun i => r.ngrw.getD i 0)
            else s.ngrw
    nshr := if v2 then s.nshr ++ ii.map (fun i => r.nshr.getD i 0)
            else s.nshr
    dngrw := if v2 then
        s.dngrw ++ ii.map (fun i => r.ngrw.getD (i + w) 0 - r.ngrw.getD i 0)
      else s.dngrw
    dnshr := if v2 then
        s.dnshr ++ ii.map (fun i => r.nshr.getD (i + w) 0 - r.nshr.getD i 0)
      else s.dnshr
    dornt := if v2 then
        s.dornt ++ ii.map (fun i =>
          dorntVal (r.ornt.getD (i + w) (0, 0, 0)) (r.ornt.getD i (0, 0, 0)))
      else s.dornt
    dlen := s.dlen ++ ii.map (fun i =>
      if v2 then
        (r.ngrw.getD (i + w) 0 - r.ngrw.getD i 0) -
          (r.nshr.getD (i + w) 0 - r.nshr.getD i 0)
      else r.length.getD (i + w) 0 - r.length.getD i 0)
    dlen_um := s.dlen_um ++ ii.map (fun i =>
      ((if v2 then
          (r.ngrw.getD (i + w) 0 - r.ngrw.getD i 0) -
            (r.nshr.getD (i + w) 0 - r.nshr.getD i 0)
        else r.length.getD (i + w) 0 - r.length.getD i 0 : ℤ) : ℚ)
        * edge_len)
    dtime := s.dtime ++ ii.map (fun i =>
      r.time.getD (i + w) 0 - r.time.getD i 0)
    vel := s.vel ++ ii.map (fun i =>
      let dl : ℚ :=
        ((if v2 then
            (r.ngrw.getD (i + w) 0 - r.ngrw.getD i 0) -
              (r.nshr.getD (i + w) 0 - r.nshr.getD i 0)
          else r.length.getD (i + w) 0 - r.length.getD i 0 : ℤ) : ℚ)
          * edge_len
      let dt : ℚ := r.time.getD (i + w) 0 - r.time.getD i 0
      (if dt = 0 then 0 else dl / dt) * 60)
    length := s.length ++ ii.map (fun i => r.length.getD i 0)
    time := s.time ++ ii.map (fun i => r.time.getD i 0)
    pos_fr := s.pos_fr ++ ii.map (fun i => r.pos.getD i (0, 0, 0))
    pos_to := s.pos_to ++ ii.map (fun i => r.pos.getD (i + w) (0, 0, 0))
    dist0_fr := s.dist0_fr ++ ii.map (fun i => r.dist0.getD i 0)
    dist0_to := s.dist0_to ++ ii.map (fun i => r.dist0.getD (i + w) 0)
    dist_plm := s.dist_plm ++ ii.map (fun i => r.dist_plm.getD i 0)
    dist_nuc := s.dist_nuc ++ ii.map (fun i => r.dist_nuc.getD i 0)
    cas := s.cas ++ ii.map (fun i => r.cas.getD i []) }

/-- Keep-mask of `_StateSequence.remove_instantaneous`:
`~np.isclose(dtime, 0, atol=0.)`.  With `atol=0` the numpy closeness
test `|a - 0| <= atol + rtol*|0|` degenerates to exact equality, so an
entry is kept iff `dtime != 0` exactly. -/
def keepMask (s : StateSeq) : List Bool :=
  s.dtime.map (fun d => decide (d ≠ 0))

/-- `_StateSequence.remove_instantaneous`: drop, from every data array,
the occurrences whose `dtime` is exactly zero (the loop over
`vars(self).keys()[DATA_INDS]` applies the same positional index set to
every data array; under version 1 the five version-2 arrays are absent
in Python and empty here, and filtering an empty list is the
identity). -/
def remove_instantaneous (s : StateSeq) : StateSeq :=
  { fi := maskFilter s.keepMask s.fi
    inds := maskFilter s.keepMask s.inds
    ngrw := maskFilter s.keepMask s.ngrw
    nshr := maskFilter s.keepMask s.nshr
    dngrw := maskFilter s.keepMask s.dngrw
    dnshr := maskFilter s.keepMask s.dnshr
    dornt := maskFilter s.keepMask s.dornt
    dlen := maskFilter s.keepMask s.dlen
    dlen_um := maskFilter s.keepMask s.dlen_um
    dtime := maskFilter s.keepMask s.dtime
    vel := maskFilter s.keepMask s.vel
    length := maskFilter s.keepMask s.length
    time := maskFilter s.keepMask s.time
    pos_fr := maskFilter s.keepMask s.pos_fr
    pos_to := maskFilter s.keepMask s.pos_to
    dist0_fr := maskFilter s.keepMask s.dist0_fr
    dist0_to := maskFilter s.keepMask s.dist0_to
    dist_plm := maskFilter s.keepMask s.dist_plm
    dist_nuc := maskFilter s.keepMask s.dist_nuc
    cas := maskFilter s.keepMask s.cas }

/-- `_StateSequence.stack_attributes` as used by the
`__or__` operators of `Single`, `Double` and `Triple`: the union
occurrence set whose every data array is the concatenation of the
operands' arrays (the fresh `'o…'`-named instance the operator creates
starts with empty arrays, so stacking into it is plain
concatenation). -/
def union (a b : StateSeq) : StateSeq :=
  { fi := a.fi ++ b.fi
    inds := a.inds ++ b.inds
    ngrw := a.ngrw ++ b.ngrw
    nshr := a.nshr ++ b.nshr
    dngrw := a.dngrw ++ b.dngrw
    dnshr := a.dnshr ++ b.dnshr
    dornt := a.dornt ++ b.dornt
    dlen := a.dlen ++ b.dlen
    dlen_um := a.dlen_um ++ b.dlen_um
    dtime := a.dtime ++ b.dtime
    vel := a.vel ++ b.vel
    length := a.length ++ b.length
    time := a.time ++ b.time
    pos_fr := a.pos_fr ++ b.pos_fr
    pos_to := a.pos_to ++ b.pos_to
    dist0_fr := a.dist0_fr ++ b.dist0_fr
    dist0_to := a.dist0_to ++ b.dist0_to
    dist_plm := a.dist_plm ++ b.dist_plm
    dist_nuc := a.dist_nuc ++ b.dist_nuc
    cas := a.cas ++ b.cas }

/-- Same-length invariant of the occurrence-set data arrays: every
per-occurrence array has first-dimension length equal to `num()`; the
version-2 arrays participate when the run version is 2 and are absent
(empty) under version 1. -/
def Wf (v2 : Bool) (s : StateSeq) : Prop :=
  s.fi.length = s.num ∧
  s.inds.length = s.num ∧
  s.dlen.length = s.num ∧
  s.dlen_um.length = s.num ∧
  s.dtime.length = s.num ∧
  s.vel.length = s.num ∧
  s.length.length = s.num ∧
  s.pos_fr.length = s.num ∧
  s.pos_to.length = s.num ∧
  s.dist0_fr.length = s.num ∧
  s.dist0_to.length = s.num ∧
  s.dist_plm.length = s.num ∧
  s.dist_nuc.length = s.num ∧
  s.cas.length = s.num ∧
  (v2 = true → s.ngrw.length = s.num ∧ s.nshr.length = s.num ∧
    s.dngrw.length = s.num ∧ s.dnshr.length = s.num ∧
    s.dornt.length = s.num) ∧
  (v2 = false → s.ngrw = [] ∧ s.nshr = [] ∧ s.dngrw = [] ∧
    s.dnshr = [] ∧ s.dornt = [])

instance (v2 : Bool) (s : StateSeq) : Decidable (s.Wf v2) := by
  unfold StateSeq.Wf; infer_instance

end StateSeq

/-- Spatial-region filter: a half-open interval `[min, max)` on the
distance to the cell center; the upper bound `none` models `np.Inf`
(the `dist_lim` default of `set_from_records` is `[0., np.Inf]`). -/
abbrev DistLim : Type := ℚ × Option ℚ

/-- Default region filter `[0., np.Inf]`. -/
def defaultLim : DistLim := (0, none)

/-- Region predicate `dist0 >= dist_lim[0] & dist0 < dist_lim[1]`. -/
def inRegion (lim : DistLim) (d : ℚ) : Bool :=
  decide (lim.1 ≤ d) &&
    (match lim.2 with
     | none => true
     | some m => decide (d < m))

/-- Candidate-index selection of `Single.set_from_records` for one
stream: the indices of the boolean mask
`(state_fr[:-1] == fr) & (state_to[:-1] == to) & (dist0[:-1] >= lim0) &
(dist0[:-1] < lim1)`. -/
def Single.sel (fr toSt : ℤ) (lim : DistLim) (f : FilamentHistory) :
    List ℕ :=
  (List.range (f.state_fr.length - 1)).filter (fun i =>
    (decide (f.state_fr.getD i 0 = fr) &&
     decide (f.state_to.getD i 0 = toSt)) &&
    inRegion lim (f.dist0.getD i 0))

/-- Candidate-index selection of `Triple.set_from_records` for one
stream (`WIDTH = 3`): the mask requires
`state_fr[i] == fr`, `state_to[i] == im1`, `state_to[i+1] == im2`,
`state_to[i+2] == to` and the region predicate on `dist0[i]` (the
region is set by the location of the first event). -/
def Triple.sel (fr im1 im2 toSt : ℤ) (lim : DistLim)
    (f : FilamentHistory) : List ℕ :=
  (List.range (f.state_fr.length - 3)).filter (fun i =>
    (decide (f.state_fr.getD i 0 = fr) &&
     decide (f.state_to.getD i 0 = im1) &&
     decide (f.state_to.getD (i + 1) 0 = im2) &&
     decide (f.state_to.getD (i + 2) 0 = toSt)) &&
    inRegion lim (f.dist0.getD i 0))

/-- Modelled from the spec: candidate-index selection of the width-2
matcher `Double.set_from_records` (`state_sequences/double.py` is
imported by `event_collections.py` but missing from the sources).
Spec §4.1: a width-`w` pattern matches at `i` when the state codes at
positions `i, i+1, …, i+w` equal the target pattern and the
distance-to-center at position `i` lies in the region; with the
single/triple encoding of consecutive states this is
`state_fr[i] == fr`, `state_to[i] == im`, `state_to[i+1] == to`. -/
def Double.sel (fr im toSt : ℤ) (lim : DistLim)
    (f : FilamentHistory) : List ℕ :=
  (List.range (f.state_fr.length - 2)).filter (fun i =>
    (decide (f.state_fr.getD i 0 = fr) &&
     decide (f.state_to.getD i 0 = im) &&
     decide (f.state_to.getD (i + 1) 0 = toSt)) &&
    inRegion lim (f.dist0.getD i 0))

/-- Shared loop of the `set_from_records` methods: iterate the streams
with `enumerate`, appending (`if isg.size:` — an empty selection skips
the append, which is a no-op anyway), then remove the instantaneous
occurrences once at the end. -/
def setFromRecordsWith (v2 : Bool) (edge_len : ℚ) (w : ℕ)
    (sel : FilamentHistory → List ℕ)
    (records : List FilamentHistory) : StateSeq :=
  (records.enum.foldl
    (fun s jf =>
      let ii := sel jf.2
      if ii.isEmpty then s else s.append v2 edge_len jf.2 ii jf.1 w)
    StateSeq.empty).remove_instantaneous

/-- `Single.set_from_records` over all streams. -/
def Single.setFromRecords (v2 : Bool) (edge_len : ℚ) (fr toSt : ℤ)
    (records : List FilamentHistory) (lim : DistLim) : StateSeq :=
  setFromRecordsWith v2 edge_len 1 (Single.sel fr toSt lim) records

/-- `Triple.set_from_records` over all streams. -/
def Triple.setFromRecords (v2 : Bool) (edge_len : ℚ)
    (fr im1 im2 toSt : ℤ) (records : List FilamentHistory)
    (lim : DistLim) : StateSeq :=
  setFromRecordsWith v2 edge_len 3 (Triple.sel fr im1 im2 toSt lim) records

/-- Modelled from the spec: `Double.set_from_records` over all streams
(width 2; the shared loop is that of the present `Single`/`Triple`
sources, which the spec describes uniformly for widths 1–3). -/
def Double.setFromRecords (v2 : Bool) (edge_len : ℚ)
    (fr im toSt : ℤ) (records : List FilamentHistory)
    (lim : DistLim) : StateSeq :=
  setFromRecordsWith v2 edge_len 2 (Double.sel fr im toSt lim) records

/-- One occurrence, as a row: the values `_StateSequence.append` pulls
from a stream for one matched index.  The version-2 entries are
computed unconditionally here (they are deterministic functions of the
stream, and on a version-1 stream, whose `ngrw`/`nshr`/`ornt` are
empty, they take fixed default values); the correspondence predicate
`Corresponds` below relates them to the struct arrays only when the
run version is 2. -/
structure Occ where
  fi : ℕ
  ind : ℕ
  ngrw : ℤ
  nshr : ℤ
  dngrw : ℤ
  dnshr : ℤ
  dornt : ℚ
  dlen : ℤ
  dlen_um : ℚ
  dtime : ℚ
  vel : ℚ
  length : ℤ
  time : ℚ
  pos_fr : Vec3
  pos_to : Vec3
  dist0_fr : ℚ
  dist0_to : ℚ
  dist_plm : ℚ
  dist_nuc : ℚ
  cas : Cas
deriving DecidableEq, Inhabited

/-- The row `_StateSequence.append` produces for matched index `i` of
stream `r` with filament index `j` and width `w`; each field is the
same per-index expression as in `StateSeq.append`. -/
def mkOcc (v2 : Bool) (edge_len : ℚ) (r : FilamentHistory)
    (j w : ℕ) (i : ℕ) : Occ :=
  { fi := j
    ind := i
    ngrw := r.ngrw.getD i 0
    nshr := r.nshr.getD i 0
    dngrw := r.ngrw.getD (i + w) 0 - r.ngrw.getD i 0
    dnshr := r.nshr.getD (i + w) 0 - r.nshr.getD i 0
    dornt := dorntVal (r.ornt.getD (i + w) (0, 0, 0))
      (r.ornt.getD i (0, 0, 0))
    dlen := if v2 then
        (r.ngrw.getD (i + w) 0 - r.ngrw.getD i 0) -
          (r.nshr.getD (i + w) 0 - r.nshr.getD i 0)
      else r.length.getD (i + w) 0 - r.length.getD i 0
    dlen_um :=
      ((if v2 then
          (r.ngrw.getD (i + w) 0 - r.ngrw.getD i 0) -
            (r.nshr.getD (i + w) 0 - r.nshr.getD i 0)
        else r.length.getD (i + w) 0 - r.length.getD i 0 : ℤ) : ℚ)
        * edge_len
    dtime := r.time.getD (i + w) 0 - r.time.getD i 0
    vel :=
      let dl : ℚ :=
        ((if v2 then
            (r.ngrw.getD (i + w) 0 - r.ngrw.getD i 0) -
              (r.nshr.getD (i + w) 0 - r.nshr.getD i 0)
          else r.length.getD (i + w) 0 - r.length.getD i 0 : ℤ) : ℚ)
          * edge_len
      let dt : ℚ := r.time.getD (i + w) 0 - r.time.getD i 0
      (if dt = 0 then 0 else dl / dt) * 60
    length := r.length.getD i 0
    time := r.time.getD i 0
    pos_fr := r.pos.getD i (0, 0, 0)
    pos_to := r.pos.getD (i + w) (0, 0, 0)
    dist0_fr := r.dist0.getD i 0
    dist0_to := r.dist0.getD (i + w) 0
    dist_plm := r.dist_plm.getD i 0
    dist_nuc := r.dist_nuc.getD i 0
    cas := r.cas.getD i [] }

/-- Row list a full `set_from_records` run accumulates before the
instantaneous-occurrence removal: for every stream (in `enumerate`
order) the selected indices, mapped to their rows. -/
def rowsFrom (v2 : Bool) (edge_len : ℚ) (w : ℕ)
    (sel : FilamentHistory → List ℕ)
    (records : List FilamentHistory) : List Occ :=
  records.enum.flatMap
    (fun jf => (sel jf.2).map (mkOcc v2 edge_len jf.2 jf.1 w))

/-- Surviving rows of a full `set_from_records` run: the accumulated
rows with the zero-`dtime` occurrences removed. -/
def runRows (v2 : Bool) (edge_len : ℚ) (w : ℕ)
    (sel : FilamentHistory → List ℕ)
    (records : List FilamentHistory) : List Occ :=
  (rowsFrom v2 edge_len w sel records).filter (fun o => decide (o.dtime ≠ 0))

/-- The struct-of-arrays occurrence set `s` holds exactly the rows `R`,
in order: every data array of `s` is the corresponding projection of
`R` (the five version-2 arrays when the run version is 2; under
version 1 they are absent, i.e. empty). -/
def Corresponds (v2 : Bool) (s : StateSeq) (R : List Occ) : Prop :=
  s.fi = R.map Occ.fi ∧
  s.inds = R.map Occ.ind ∧
  s.dlen = R.map Occ.dlen ∧
  s.dlen_um = R.map Occ.dlen_um ∧
  s.dtime = R.map Occ.dtime ∧
  s.vel = R.map Occ.vel ∧
  s.length = R.map Occ.length ∧
  s.time = R.map Occ.time ∧
  s.pos_fr = R.map Occ.pos_fr ∧
  s.pos_to = R.map Occ.pos_to ∧
  s.dist0_fr = R.map Occ.dist0_fr ∧
  s.dist0_to = R.map Occ.dist0_to ∧
  s.dist_plm = R.map Occ.dist_plm ∧
  s.dist_nuc = R.map Occ.dist_nuc ∧
  s.cas = R.map Occ.cas ∧
  s.ngrw = (if v2 then R.map Occ.ngrw else []) ∧
  s.nshr = (if v2 then R.map Occ.nshr else []) ∧
  s.dngrw = (if v2 then R.map Occ.dngrw else []) ∧
  s.dnshr = (if v2 then R.map Occ.dnshr else []) ∧
  s.dornt = (if v2 then R.map Occ.dornt else [])

/-- Value part of a defined `report.Stats` record: average, square of
the standard deviation (see the module docstring), and the unit
string. -/
structure StatsVal where
  avg : ℚ
  stdSq : ℚ
  units : String
deriving DecidableEq, Inhabited

/-- A `report.Stats` record whose `avg`/`std` may be `NaN`: `none`
models `Stats(np.nan, np.nan, '')`, the value the lazily cached
statistics keep whenever the underlying data array is empty. -/
abbrev Stats : Type := Option StatsVal

/-- Shared body of the statistic setters (`duration.setter` etc.): a
defined record when the underlying data array is nonempty, otherwise
the `NaN` record.  The getter-after-setter round trip of the Python
property equals this direct computation: the cached value is `NaN`
until the first successful set, and the setter recomputes from the
array. -/
def statsOf (l : List ℚ) (units : String) : Stats :=
  if l.length ≠ 0 then some ⟨listMean l, listVar l, units⟩ else none

/-- `_StateSequence.duration`: mean/std of `dtime`, in seconds. -/
def StateSeq.duration (s : StateSeq) : Stats := statsOf s.dtime "sec"

/-- `_StateSequence.elongation`: mean/std of `dlen_um`, in μm. -/
def StateSeq.elongation (s : StateSeq) : Stats := statsOf s.dlen_um "μm"

/-- `_StateSequence.velocity`: mean/std of `vel`, in μm/min. -/
def StateSeq.velocity (s : StateSeq) : Stats := statsOf s.vel "μm/min"

/-- `_StateSequence.reorientation`: the getter's setter round trip
reads `self.dornt`, an attribute that exists only when
`PARAMS['history_version'] == 2`; under version 1 the read raises
`AttributeError`, modelled as `Except.error ()`. -/
def StateSeq.reorientation (v2 : Bool) (s : StateSeq) :
    Except Unit Stats :=
  if v2 then Except.ok (statsOf s.dornt "grad") else Except.error ()

/-- Failure mode of a pattern constructor (`Single.__init__` /
`Triple.__init__` unpacking `StateTypes.from_str`): `unknownState`
models the `KeyError` on a letter outside the state enumeration,
`widthMismatch` the `ValueError` when the number of letters is not the
pattern width + 1. -/
inductive InitError where
  | unknownState : InitError
  | widthMismatch : InitError
deriving DecidableEq

/-- `Single.__init__` with a pattern string: unpack
`StateTypes.from_str(s)` into `(fr, to)`; any unknown letter or a
length other than `WIDTH + 1 = 2` raises. -/
def Single.init (s : String) : Except InitError (ℤ × ℤ) :=
  match StateTypes.fromStr s with
  | none => Except.error InitError.unknownState
  | some [fr, toSt] => Except.ok (fr, toSt)
  | some _ => Except.error InitError.widthMismatch

/-- `Triple.__init__` with a pattern string: unpack
`StateTypes.from_str(s)` into `(fr, im1, im2, to)`; any unknown letter
or a length other than `WIDTH + 1 = 4` raises. -/
def Triple.init (s : String) : Except InitError (ℤ × ℤ × ℤ × ℤ) :=
  match StateTypes.fromStr s with
  | none => Except.error InitError.unknownState
  | some [fr, im1, im2, toSt] => Except.ok (fr, im1, im2, toSt)
  | some _ => Except.error InitError.widthMismatch

/-- `EventCollections.PureS`: the width-1 elementary occurrence sets,
one per named single transition (fields in declaration order
`sg pg gs ps gp sp cs cg gd sd pd`; note there is no `cp` field). -/
structure PureS where
  sg : StateSeq
  pg : StateSeq
  gs : StateSeq
  ps : StateSeq
  gp : StateSeq
  sp : StateSeq
  cs : StateSeq
  cg : StateSeq
  gd : StateSeq
  sd : StateSeq
  pd : StateSeq
deriving DecidableEq, Inhabited

/-- `EventCollections.PureD`: the width-2 elementary occurrence sets
(`gsg psg csg gps cgs cgp sgs pgs sgp`). -/
structure PureD where
  gsg : StateSeq
  psg : StateSeq
  csg : StateSeq
  gps : StateSeq
  cgs : StateSeq
  cgp : StateSeq
  sgs : StateSeq
  pgs : StateSeq
  sgp : StateSeq
deriving DecidableEq, Inhabited

/-- `EventCollections.PureT`: the width-3 elementary occurrence sets
(`sgps cgps`). -/
structure PureT where
  sgps : StateSeq
  cgps : StateSeq
deriving DecidableEq, Inhabited

/-- State of an `EventCollections` instance after `__init__` (the
Category Catalog for one region): the elementary occurrence sets and
the composite categories derived from them by union. -/
structure EventColl where
  pure_s : PureS
  pure_d : PureD
  pure_t : PureT
  shrinks : StateSeq
  grows : StateSeq
  pauses : StateSeq
  sg : StateSeq
  gs : StateSeq
  gps : StateSeq
deriving DecidableEq, Inhabited

/-- `EventCollections.__init__` for one region: instantiate every
elementary pattern over the records with the region's distance limits,
then compose `shrinks = gs | ps | cs`, `grows = sg | pg | cg`,
`pauses = gp | sp`, `sg = gsg | psg | csg`, `gs = sgs | pgs | cgs`,
`gps = sgps | cgps`.  The width-2 sets use the spec-modelled
`Double.setFromRecords` (`double.py` is missing from the sources). -/
def mkEventColl (v2 : Bool) (edge_len : ℚ)
    (records : List FilamentHistory) (lim : DistLim) : EventColl :=
  let G := StateTypes.G
  let S := StateTypes.S
  let P := StateTypes.P
  let C := StateTypes.C
  let D := StateTypes.D
  let run1 := fun a b => Single.setFromRecords v2 edge_len a b records lim
  let run2 := fun a b c => Double.setFromRecords v2 edge_len a b c records lim
  let run3 := fun a b c d =>
    Triple.setFromRecords v2 edge_len a b c d records lim
  let t1 : PureS :=
    ⟨run1 S G, run1 P G, run1 G S, run1 P S, run1 G P, run1 S P,
     run1 C S, run1 C G, run1 G D, run1 S D, run1 P D⟩
  let t2 : PureD :=
    ⟨run2 G S G, run2 P S G, run2 C S G, run2 G P S, run2 C G S,
     run2 C G P, run2 S G S, run2 P G S, run2 S G P⟩
  let t3 : PureT := ⟨run3 S G P S, run3 C G P S⟩
  { pure_s := t1
    pure_d := t2
    pure_t := t3
    shrinks := (t1.gs.union t1.ps).union t1.cs
    grows := (t1.sg.union t1.pg).union t1.cg
    pauses := t1.gp.union t1.sp
    sg := (t2.gsg.union t2.psg).union t2.csg
    gs := (t2.sgs.union t2.pgs).union t2.cgs
    gps := t3.sgps.union t3.cgps }

/-- `numpy` absolute-tolerance default of `np.isclose` (`atol=1e-8`;
the `rtol` term vanishes against a zero reference value). -/
def atol : ℚ := 1 / 100000000

/-- `np.isclose(x, 0.)` for a possibly-`NaN` float: false on `NaN`,
otherwise `|x| <= atol`. -/
def iscloseZero : Option ℚ → Bool
  | none => false
  | some v => decide (|v| ≤ atol)

/-- `NaN`-propagating division of two floats (a ratio whose numerator
or denominator is `NaN` is `NaN`). -/
def optDiv : Option ℚ → Option ℚ → Option ℚ
  | some x, some y => some (x / y)
  | _, _ => none

/-- A phase time fraction `num / den if not np.isclose(den, 0.) else
np.nan` (`report_cycle_uncorrelated`, and the `sg`/`gs` fractions of
`report_cycle_correlated`). -/
def fracOf (numer den : Option ℚ) : Option ℚ :=
  if iscloseZero den then none else optDiv numer den

/-- A `g0s` phase time fraction
`num / den if not np.isclose(den, 0.) and not np.isnan(den) else
np.nan` (`report_cycle_correlated`). -/
def fracOfDefined (numer den : Option ℚ) : Option ℚ :=
  if iscloseZero den = false ∧ den ≠ none then optDiv numer den else none

/-- The `g0s` combined duration of
`EventCollections.report_cycle_correlated` (lines 290–308): when
`g0s_num = gs.num() + gps.num()` is nonzero and both component means
are defined, the count-weighted mean with pooled deviation
`sqrt((n_gs·std_gs)² + (n_gps·std_gps)²) / g0s_num`, carried here as
its square `(n_gs²·var_gs + n_gps²·var_gps) / g0s_num²`; otherwise the
`NaN` record `Stats(np.nan, np.nan, '')`. -/
def g0sDuration (gs gps : StateSeq) : Stats :=
  let g0s_num : ℕ := gs.num + gps.num
  match gs.duration, gps.duration with
  | some dgs, some dgps =>
      if g0s_num ≠ 0 then
        some ⟨((gs.num : ℚ) * dgs.avg + (gps.num : ℚ) * dgps.avg)
                / (g0s_num : ℚ),
              ((gs.num : ℚ) ^ 2 * dgs.stdSq +
                 (gps.num : ℚ) ^ 2 * dgps.stdSq) / (g0s_num : ℚ) ^ 2,
              "sec"⟩
      else none
  | _, _ => none

/-- Average of a `Stats` value as a possibly-`NaN` float. -/
def Stats.avgO (st : Stats) : Option ℚ := st.map StatsVal.avg

/-- Squared standard deviation of a `Stats` value as a possibly-`NaN`
float. -/
def Stats.stdSqO (st : Stats) : Option ℚ := st.map StatsVal.stdSq

/-- Python dictionary value, as far as the summary dictionaries of
`EventCollections` need: `None`, a float (possibly `NaN`), a string,
or a nested dict (an association list keyed by strings). -/
inductive RVal where
  | null : RVal
  | flt : Option ℚ → RVal
  | str : String → RVal
  | dict : List (String × RVal) → RVal

/-- Dictionary lookup `v[k]`: `some` entry for a dict that has the
key, `none` otherwise. -/
def getKey (v : RVal) (k : String) : Option RVal :=
  match v with
  | RVal.dict l => l.lookup k
  | _ => none

/-- Sum of the 3-entry phase array
`np.array([shrinks_avg, grows_avg, pauses_avg]).sum()`, `NaN` when any
phase mean is `NaN`. -/
def sum3 : Option ℚ → Option ℚ → Option ℚ → Option ℚ
  | some a, some b, some c => some (a + b + c)
  | _, _, _ => none

/-- Squared `np.std` of the 3-entry phase array, `NaN` when any phase
mean is `NaN`. -/
def var3 : Option ℚ → Option ℚ → Option ℚ → Option ℚ
  | some a, some b, some c => some (listVar [a, b, c])
  | _, _, _ => none

/-- Return dictionary of `EventCollections.report_cycle_uncorrelated`
(lines 231–237): overall duration (sum of the three phase means, std
over the three) and the per-phase time fractions. -/
def reportCycleUncorrelated (ec : EventColl) : RVal :=
  let cdAvg := sum3 ec.shrinks.duration.avgO ec.grows.duration.avgO
    ec.pauses.duration.avgO
  let cdStdSq := var3 ec.shrinks.duration.avgO ec.grows.duration.avgO
    ec.pauses.duration.avgO
  RVal.dict
    [("duration", RVal.dict
        [("avg", RVal.flt cdAvg), ("std", RVal.flt cdStdSq)]),
     ("time_fraction", RVal.dict
        [("growth", RVal.flt (fracOf ec.grows.duration.avgO cdAvg)),
         ("shrink", RVal.flt (fracOf ec.shrinks.duration.avgO cdAvg)),
         ("pause", RVal.flt (fracOf ec.pauses.duration.avgO cdAvg))])]

/-- The `{'avg': …, 'std': …, 'units': …}` dictionary a
`_StateSequence.report('duration')` call returns for an occurrence
set. -/
def durationDict (s : StateSeq) : RVal :=
  RVal.dict
    [("avg", RVal.flt s.duration.avgO),
     ("std", RVal.flt s.duration.stdSqO),
     ("units", RVal.str (match s.duration with
       | some st => st.units
       | none => ""))]

/-- Return dictionary of `EventCollections.report_cycle_correlated`
(lines 349–367): the `sg` and `gs` compound cycles with their
growth/shrink fractions, and the combined `g0s` cycle with
growth/shrink/pause fractions against the `g0sDuration` mean. -/
def reportCycleCorrelated (ec : EventColl) : RVal :=
  let sgda := ec.sg.duration.avgO
  let gsda := ec.gs.duration.avgO
  let g0s := g0sDuration ec.gs ec.gps
  RVal.dict
    [("sg", RVal.dict
        [("duration", durationDict ec.sg),
         ("time_fraction", RVal.dict
            [("growth", RVal.flt (fracOf ec.grows.duration.avgO sgda)),
             ("shrink", RVal.flt (fracOf ec.shrinks.duration.avgO sgda))])]),
     ("gs", RVal.dict
        [("duration", durationDict ec.gs),
         ("time_fraction", RVal.dict
            [("growth", RVal.flt (fracOf ec.grows.duration.avgO gsda)),
             ("shrink", RVal.flt (fracOf ec.shrinks.duration.avgO gsda))])]),
     ("g0s", RVal.dict
        [("duration", RVal.dict
            [("avg", RVal.flt g0s.avgO), ("std", RVal.flt g0s.stdSqO)]),
         ("time_fraction", RVal.dict
            [("growth",
              RVal.flt (fracOfDefined ec.grows.duration.avgO g0s.avgO)),
             ("shrink",
              RVal.flt (fracOfDefined ec.shrinks.duration.avgO g0s.avgO)),
             ("pause",
              RVal.flt (fracOfDefined ec.pauses.duration.avgO g0s.avgO))])])]

/-- The two cycle entries of the summary dictionary returned by
`EventCollections.report_by_type` (lines 448–452):
`res['cycle_uncorrelated'] = self.report_cycle_uncorrelated(show) if
self.END else None`, and likewise for the correlated view.  The other
entries of `res` (per-pattern reports, compositions plotted through
the external Reporting Service) are outside the embedded core and are
not modelled; the claim examined here concerns only these two
entries. -/
def reportByTypeCycles (END : ℕ) (ec : EventColl) : RVal :=
  RVal.dict
    [("cycle_uncorrelated",
      if END ≠ 0 then reportCycleUncorrelated ec else RVal.null),
     ("cycle_correlated",
      if END ≠ 0 then reportCycleCorrelated ec else RVal.null)]

/-- Mask filtering distributes over cons. -/
theorem maskFilter_cons (b : Bool) (m : List Bool) (x : α) (l : List α) :
    maskFilter (b :: m) (x :: l) =
      if b then x :: maskFilter m l else maskFilter m l := by
  cases b <;> simp [maskFilter]

/-- Mask filtering an empty list yields the empty list. -/
theorem maskFilter_nil (m : List Bool) :
    maskFilter m ([] : List α) = [] := by
  simp [maskFilter]

/-- Fancy indexing of a projected row list by a mask computed from
another projection of the same row list is the projection of the row
filter: the positional index set computed from `dtime` selects the same
rows in every data array. -/
theorem maskFilter_of_maps (R : List γ) (pm : γ → Bool) (q : γ → α) :
    maskFilter (R.map pm) (R.map q) = (R.filter pm).map q := by
  induction R with
  | nil => rfl
  | cons a R ih =>
      simp only [List.map_cons, maskFilter_cons, List.filter_cons]
      cases h : pm a <;> simp [ih]

/-- Lists of equal length filtered by one mask keep equal lengths. -/
theorem maskFilter_length_eq :
    ∀ (m : List Bool) (l₁ : List α) (l₂ : List β),
      l₁.length = m.length → l₂.length = m.length →
      (maskFilter m l₁).length = (maskFilter m l₂).length := by
  intro m
  induction m with
  | nil =>
      intro l₁ l₂ h₁ h₂
      rw [List.length_eq_zero.mp h₁, List.length_eq_zero.mp h₂]
      rfl
  | cons b m ih =>
      intro l₁ l₂ h₁ h₂
      cases l₁ with
      | nil => simp at h₁
      | cons x l₁ =>
          cases l₂ with
          | nil => simp at h₂
          | cons y l₂ =>
              simp only [List.length_cons, Nat.succ.injEq] at h₁ h₂
              cases b <;>
                simp [maskFilter_cons, ih l₁ l₂ h₁ h₂]

/-- An empty occurrence set holds no rows. -/
theorem corresponds_empty (v2 : Bool) :
    Corresponds v2 StateSeq.empty [] := by
  cases v2 <;> simp [Corresponds, StateSeq.empty]

/-- Projecting the matched index back out of a freshly built row is the
identity. -/
theorem map_ind_mkOcc (v2 : Bool) (edge_len : ℚ) (r : FilamentHistory)
    (j w : ℕ) (ii : List ℕ) :
    ii.map (Occ.ind ∘ mkOcc v2 edge_len r j w) = ii := by
  have h : (Occ.ind ∘ mkOcc v2 edge_len r j w) = id := rfl
  rw [h, List.map_id]

/-- `append` extends the row content by the rows of the newly matched
indices. -/
theorem corresponds_append (v2 : Bool) (edge_len : ℚ) (s : StateSeq)
    (R : List Occ) (r : FilamentHistory) (ii : List ℕ) (j w : ℕ)
    (h : Corresponds v2 s R) :
    Corresponds v2 (s.append v2 edge_len r ii j w)
      (R ++ ii.map (mkOcc v2 edge_len r j w)) := by
  obtain ⟨h1, h2, h3, h4, h5, h6, h7, h8, h9, h10, h11, h12, h13, h14,
    h15, h16, h17, h18, h19, h20⟩ := h
  cases v2 <;>
    refine ⟨?_, ?_, ?_, ?_, ?_, ?_, ?_, ?_, ?_, ?_, ?_, ?_, ?_, ?_, ?_,
      ?_, ?_, ?_, ?_, ?_⟩ <;>
    (simp only [StateSeq.append, List.map_append, List.map_map, h1, h2,
      h3, h4, h5, h6, h7, h8, h9, h10, h11, h12, h13, h14, h15, h16,
      h17, h18, h19, h20, reduceIte] <;>
     try first
       | rfl
       | rw [map_ind_mkOcc])

/-- `remove_instantaneous` filters the rows by nonzero `dtime`,
consistently across every data array. -/
theorem corresponds_remove (v2 : Bool) (s : StateSeq) (R : List Occ)
    (h : Corresponds v2 s R) :
    Corresponds v2 s.remove_instantaneous
      (R.filter (fun o => decide (o.dtime ≠ 0))) := by
  obtain ⟨h1, h2, h3, h4, h5, h6, h7, h8, h9, h10, h11, h12, h13, h14,
    h15, h16, h17, h18, h19, h20⟩ := h
  have hmask : s.keepMask = R.map (fun o => decide (o.dtime ≠ 0)) := by
    rw [StateSeq.keepMask, h5, List.map_map]
    rfl
  cases v2 <;>
    refine ⟨?_, ?_, ?_, ?_, ?_, ?_, ?_, ?_, ?_, ?_, ?_, ?_, ?_, ?_, ?_,
      ?_, ?_, ?_, ?_, ?_⟩ <;>
    (simp only [StateSeq.remove_instantaneous, hmask, h1, h2, h3, h4,
      h5, h6, h7, h8, h9, h10, h11, h12, h13, h14, h15, h16, h17, h18,
      h19, h20, reduceIte, maskFilter_nil] <;>
     try first
       | exact maskFilter_of_maps R _ _
       | simp [maskFilter_nil])

/-- The `|` union concatenates row content. -/
theorem corresponds_union (v2 : Bool) (a b : StateSeq)
    (Ra Rb : List Occ) (ha : Corresponds v2 a Ra)
    (hb : Corresponds v2 b Rb) :
    Corresponds v2 (a.union b) (Ra ++ Rb) := by
  obtain ⟨a1, a2, a3, a4, a5, a6, a7, a8, a9, a10, a11, a12, a13, a14,
    a15, a16, a17, a18, a19, a20⟩ := ha
  obtain ⟨b1, b2, b3, b4, b5, b6, b7, b8, b9, b10, b11, b12, b13, b14,
    b15, b16, b17, b18, b19, b20⟩ := hb
  cases v2 <;>
    refine ⟨?_, ?_, ?_, ?_, ?_, ?_, ?_, ?_, ?_, ?_, ?_, ?_, ?_, ?_, ?_,
      ?_, ?_, ?_, ?_, ?_⟩ <;>
    (simp only [StateSeq.union, List.map_append, a1, a2, a3, a4, a5, a6,
      a7, a8, a9, a10, a11, a12, a13, a14, a15, a16, a17, a18, a19, a20,
      b1, b2, b3, b4, b5, b6, b7, b8, b9, b10, b11, b12, b13, b14, b15,
      b16, b17, b18, b19, b20, reduceIte, List.append_nil] <;> try simp)

/-- The stream loop of `set_from_records` accumulates the rows of every
stream, in stream order. -/
theorem corresponds_fold (v2 : Bool) (edge_len : ℚ) (w : ℕ)
    (sel : FilamentHistory → List ℕ) :
    ∀ (L : List (ℕ × FilamentHistory)) (s : StateSeq) (R : List Occ),
      Corresponds v2 s R →
      Corresponds v2
        (L.foldl
          (fun s jf =>
            let ii := sel jf.2
            if ii.isEmpty then s
            else s.append v2 edge_len jf.2 ii jf.1 w)
          s)
        (R ++ L.flatMap
          (fun jf => (sel jf.2).map (mkOcc v2 edge_len jf.2 jf.1 w))) := by
  intro L
  induction L with
  | nil => intro s R h; simpa using h
  | cons jf L ih =>
      intro s R h
      simp only [List.foldl_cons, List.flatMap_cons]
      by_cases he : (sel jf.2).isEmpty
      · rw [if_pos he]
        have hsel : sel jf.2 = [] := List.isEmpty_iff.mp he
        have := ih s R h
        simpa [hsel] using this
      · rw [if_neg he]
        have := ih (s.append v2 edge_len jf.2 (sel jf.2) jf.1 w)
          (R ++ (sel jf.2).map (mkOcc v2 edge_len jf.2 jf.1 w))
          (corresponds_append v2 edge_len s R jf.2 (sel jf.2) jf.1 w h)
        simpa [List.append_assoc] using this

/-- A full `set_from_records` run holds exactly the surviving rows
`runRows`. -/
theorem corresponds_run (v2 : Bool) (edge_len : ℚ) (w : ℕ)
    (sel : FilamentHistory → List ℕ) (records : List FilamentHistory) :
    Corresponds v2 (setFromRecordsWith v2 edge_len w sel records)
      (runRows v2 edge_len w sel records) := by
  have h := corresponds_fold v2 edge_len w sel records.enum
    StateSeq.empty [] (corresponds_empty v2)
  have h2 := corresponds_remove v2 _ _ h
  simpa [setFromRecordsWith, runRows, rowsFrom] using h2

/-- Corresponding struct and rows have equal occurrence counts. -/
theorem corresponds_num (v2 : Bool) (s : StateSeq) (R : List Occ)
    (h : Corresponds v2 s R) : s.num = R.length := by
  rw [StateSeq.num, h.2.2.2.2.2.2.2.1, List.length_map]

/-- A fresh occurrence set satisfies the same-length invariant. -/
theorem wf_empty (v2 : Bool) : StateSeq.empty.Wf v2 := by
  cases v2 <;> decide

set_option maxHeartbeats 1600000 in
/-- `append` preserves the same-length invariant: every data array
grows by exactly `len(ii)` entries. -/
theorem wf_append (v2 : Bool) (edge_len : ℚ) (s : StateSeq)
    (r : FilamentHistory) (ii : List ℕ) (j w : ℕ) (hs : s.Wf v2) :
    (s.append v2 edge_len r ii j w).Wf v2 := by
  obtain ⟨w1, w2, w3, w4, w5, w6, w7, w8, w9, w10, w11, w12, w13, w14,
    hvt, hvf⟩ := hs
  cases v2
  · obtain ⟨e1, e2, e3, e4, e5⟩ := hvf rfl
    refine ⟨?_, ?_, ?_, ?_, ?_, ?_, ?_, ?_, ?_, ?_, ?_, ?_, ?_, ?_,
      ?_, ?_⟩ <;>
      simp [StateSeq.append, StateSeq.num, w1, w2, w3, w4, w5, w6, w7,
        w8, w9, w10, w11, w12, w13, w14, e1, e2, e3, e4, e5]
  · obtain ⟨e1, e2, e3, e4, e5⟩ := hvt rfl
    refine ⟨?_, ?_, ?_, ?_, ?_, ?_, ?_, ?_, ?_, ?_, ?_, ?_, ?_, ?_,
      ?_, ?_⟩ <;>
      simp [StateSeq.append, StateSeq.num, w1, w2, w3, w4, w5, w6, w7,
        w8, w9, w10, w11, w12, w13, w14, e1, e2, e3, e4, e5]

/-- `remove_instantaneous` preserves the same-length invariant: one
positional index set, computed from `dtime`, filters every array. -/
theorem wf_remove (v2 : Bool) (s : StateSeq) (hs : s.Wf v2) :
    s.remove_instantaneous.Wf v2 := by
  obtain ⟨w1, w2, w3, w4, w5, w6, w7, w8, w9, w10, w11, w12, w13, w14,
    hvt, hvf⟩ := hs
  have hkm : s.keepMask.length = s.num := by
    simp [StateSeq.keepMask, StateSeq.num]
    simpa [StateSeq.num] using w5
  have hm : ∀ {γ : Type} (l : List γ), l.length = s.num →
      (maskFilter s.keepMask l).length =
        (maskFilter s.keepMask s.time).length := by
    intro γ l hl
    exact maskFilter_length_eq s.keepMask l s.time (hl.trans hkm.symm)
      ((rfl : s.time.length = s.num).trans hkm.symm)
  cases v2
  · obtain ⟨e1, e2, e3, e4, e5⟩ := hvf rfl
    exact ⟨hm _ w1, hm _ w2, hm _ w3, hm _ w4, hm _ w5, hm _ w6,
      hm _ w7, hm _ w8, hm _ w9, hm _ w10, hm _ w11, hm _ w12,
      hm _ w13, hm _ w14,
      fun h => Bool.noConfusion h,
      by
        intro _
        refine ⟨?_, ?_, ?_, ?_, ?_⟩ <;>
          simp [StateSeq.remove_instantaneous, e1, e2, e3, e4, e5,
            maskFilter_nil]⟩
  · obtain ⟨e1, e2, e3, e4, e5⟩ := hvt rfl
    exact ⟨hm _ w1, hm _ w2, hm _ w3, hm _ w4, hm _ w5, hm _ w6,
      hm _ w7, hm _ w8, hm _ w9, hm _ w10, hm _ w11, hm _ w12,
      hm _ w13, hm _ w14,
      fun _ => ⟨hm _ e1, hm _ e2, hm _ e3, hm _ e4, hm _ e5⟩,
      fun h => Bool.noConfusion h⟩

/-- The `|` union preserves the same-length invariant: array lengths
add. -/
theorem wf_union (v2 : Bool) (a b : StateSeq) (ha : a.Wf v2)
    (hb : b.Wf v2) : (a.union b).Wf v2 := by
  obtain ⟨a1, a2, a3, a4, a5, a6, a7, a8, a9, a10, a11, a12, a13, a14,
    avt, avf⟩ := ha
  obtain ⟨b1, b2, b3, b4, b5, b6, b7, b8, b9, b10, b11, b12, b13, b14,
    bvt, bvf⟩ := hb
  cases v2
  · obtain ⟨c1, c2, c3, c4, c5⟩ := avf rfl
    obtain ⟨d1, d2, d3, d4, d5⟩ := bvf rfl
    refine ⟨?_, ?_, ?_, ?_, ?_, ?_, ?_, ?_, ?_, ?_, ?_, ?_, ?_, ?_,
      ?_, ?_⟩ <;>
      simp [StateSeq.union, StateSeq.num, a1, a2, a3, a4, a5, a6, a7,
        a8, a9, a10, a11, a12, a13, a14, b1, b2, b3, b4, b5, b6, b7,
        b8, b9, b10, b11, b12, b13, b14, c1, c2, c3, c4, c5, d1, d2,
        d3, d4, d5]
  · obtain ⟨c1, c2, c3, c4, c5⟩ := avt rfl
    obtain ⟨d1, d2, d3, d4, d5⟩ := bvt rfl
    refine ⟨?_, ?_, ?_, ?_, ?_, ?_, ?_, ?_, ?_, ?_, ?_, ?_, ?_, ?_,
      ?_, ?_⟩ <;>
      simp [StateSeq.union, StateSeq.num, a1, a2, a3, a4, a5, a6, a7,
        a8, a9, a10, a11, a12, a13, a14, b1, b2, b3, b4, b5, b6, b7,
        b8, b9, b10, b11, b12, b13, b14, c1, c2, c3, c4, c5, d1, d2,
        d3, d4, d5]

/-- Mean of a concatenation is the count-weighted mean of the parts. -/
theorem listMeanO_append (l₁ l₂ : List ℚ) (h₁ : l₁ ≠ []) (h₂ : l₂ ≠ []) :
    listMeanO (l₁ ++ l₂) =
      some (((l₁.length : ℚ) * listMean l₁ + (l₂.length : ℚ) * listMean l₂)
        / ((l₁.length : ℚ) + (l₂.length : ℚ))) := by
  have hn₁ : (l₁.length : ℚ) ≠ 0 := by
    exact_mod_cast Nat.cast_ne_zero.mpr (fun h => h₁ (List.length_eq_zero.mp h))
  have hn₂ : (l₂.length : ℚ) ≠ 0 := by
    exact_mod_cast Nat.cast_ne_zero.mpr (fun h => h₂ (List.length_eq_zero.mp h))
  have happ : l₁ ++ l₂ ≠ [] := by
    intro h
    exact h₁ (List.append_eq_nil.mp h).1
  rw [listMeanO, if_neg happ]
  congr 1
  rw [listMean, listMean, listMean, List.sum_append, List.length_append]
  push_cast
  field_simp

/-- Weighted-mean identity with the counts given as the (nonzero)
common array length of each operand. -/
theorem union_field_mean (n1 n2 : ℕ) (l1 l2 : List ℚ)
    (h1 : l1.length = n1) (h2 : l2.length = n2) (hn1 : n1 ≠ 0)
    (hn2 : n2 ≠ 0) :
    listMeanO (l1 ++ l2) =
      some (((n1 : ℚ) * listMean l1 + (n2 : ℚ) * listMean l2) /
        ((n1 : ℚ) + (n2 : ℚ))) := by
  have hne1 : l1 ≠ [] := by
    intro h
    apply hn1
    rw [← h1, h]
    rfl
  have hne2 : l2 ≠ [] := by
    intro h
    apply hn2
    rw [← h2, h]
    rfl
  have := listMeanO_append l1 l2 hne1 hne2
  rw [h1, h2] at this
  exact this

/-- Weighted-mean identity for an integer-valued array. -/
theorem union_field_meanZ (n1 n2 : ℕ) (l1 l2 : List ℤ)
    (h1 : l1.length = n1) (h2 : l2.length = n2) (hn1 : n1 ≠ 0)
    (hn2 : n2 ≠ 0) :
    listMeanOZ (l1 ++ l2) =
      some (((n1 : ℚ) * listMeanZ l1 + (n2 : ℚ) * listMeanZ l2) /
        ((n1 : ℚ) + (n2 : ℚ))) := by
  unfold listMeanOZ listMeanZ
  rw [List.map_append]
  exact union_field_mean n1 n2 _ _ (by simp [h1]) (by simp [h2]) hn1 hn2

/-- Interleaved filters with pointwise-disjoint predicates permute to
the filter of the pointwise disjunction. -/
theorem filter_disjoint_perm (l : List α) (p q r : α → Bool)
    (hpq : ∀ x, ¬(p x = true ∧ q x = true))
    (hr : ∀ x, r x = (p x || q x)) :
    List.Perm (l.filter p ++ l.filter q) (l.filter r) := by
  induction l with
  | nil => simp
  | cons a l ih =>
      cases hp : p a <;> cases hq : q a
      · have hrf : r a = false := by rw [hr a, hp, hq]; rfl
        simp only [List.filter_cons, hp, hq, hrf, Bool.false_eq_true,
          if_false]
        exact ih
      · have hrf : r a = true := by rw [hr a, hp, hq]; rfl
        simp only [List.filter_cons, hp, hq, hrf, Bool.false_eq_true,
          if_false, if_true]
        exact List.perm_middle.trans (List.Perm.cons a ih)
      · have hrf : r a = true := by rw [hr a, hp, hq]; rfl
        simp only [List.filter_cons, hp, hq, hrf, Bool.false_eq_true,
          if_false, if_true, List.cons_append]
        exact List.Perm.cons a ih
      · exact absurd ⟨hp, hq⟩ (hpq a)

/-- Left lists of a double append rotate without changing content. -/
theorem perm_rotate (x y z : List β) :
    List.Perm (x ++ (y ++ z)) (y ++ (x ++ z)) := by
  rw [← List.append_assoc, ← List.append_assoc]
  exact List.Perm.append_right z List.perm_append_comm

/-- Stream-wise permutations assemble to a permutation of the
concatenated per-stream matches. -/
theorem flatMap_perm_append (A : List α) (f g h : α → List β)
    (hfg : ∀ a, List.Perm (f a ++ g a) (h a)) :
    List.Perm (A.flatMap f ++ A.flatMap g) (A.flatMap h) := by
  induction A with
  | nil => simp
  | cons a A ih =>
      simp only [List.flatMap_cons, List.append_assoc]
      have p1 := List.Perm.append_left (f a)
        (perm_rotate (A.flatMap f) (g a) (A.flatMap g))
      refine p1.trans ?_
      have p3 := List.Perm.append (hfg a) ih
      simpa [List.append_assoc] using p3

/-- Concrete version-1 stream fixture: two events, one
growing→shrinking transition at index 0 over `time = [0, 5]`,
`length = [10, 7]`, distance to center `0` at the transition. -/
def fEx : FilamentHistory :=
  { time := [0, 5]
    state_fr := [0, 1]
    state_to := [1, 2]
    pos := [(0, 0, 0), (1, 0, 0)]
    ornt := []
    length := [10, 7]
    age := [0, 1]
    ngrw := []
    nshr := []
    cas := [[0, 0, 0, 0, 0, 0], [0, 0, 0, 0, 0, 0]]
    dist_plm := [1, 1]
    dist_nuc := [2, 2]
    dist0 := [0, 1] }

/-- Concrete version-1 occurrence-set fixture: a single occurrence of
duration 5 (the growing→shrinking match of `fEx`). -/
def sExA : StateSeq :=
  { fi := [0]
    inds := [0]
    ngrw := []
    nshr := []
    dngrw := []
    dnshr := []
    dornt := []
    dlen := [-3]
    dlen_um := [-3]
    dtime := [5]
    vel := [-36]
    length := [10]
    time := [0]
    pos_fr := [(0, 0, 0)]
    pos_to := [(1, 0, 0)]
    dist0_fr := [0]
    dist0_to := [1]
    dist_plm := [1]
    dist_nuc := [2]
    cas := [[0, 0, 0, 0, 0, 0]] }

/-- Second concrete version-1 occurrence-set fixture: a single
occurrence of duration 10. -/
def sExB : StateSeq :=
  { fi := [1]
    inds := [0]
    ngrw := []
    nshr := []
    dngrw := []
    dnshr := []
    dornt := []
    dlen := [2]
    dlen_um := [2]
    dtime := [10]
    vel := [12]
    length := [4]
    time := [3]
    pos_fr := [(0, 0, 0)]
    pos_to := [(0, 1, 0)]
    dist0_fr := [0]
    dist0_to := [1]
    dist_plm := [1]
    dist_nuc := [2]
    cas := [[0, 0, 0, 0, 0, 0]] }

/-- C10.  Every operation on an occurrence set — construction
(`__init__`), `append`, `remove_instantaneous` and the `|` union —
preserves the invariant that all per-occurrence data arrays have the
same first-dimension length, equal to `num()` (with the version-2
fields participating when present, i.e. when the history version
is 2). -/
theorem claim_C10 (v2 : Bool) (edge_len : ℚ) :
    StateSeq.empty.Wf v2 ∧
    (∀ (s : StateSeq) (r : FilamentHistory) (ii : List ℕ) (j w : ℕ),
      s.Wf v2 → (s.append v2 edge_len r ii j w).Wf v2) ∧
    (∀ s : StateSeq, s.Wf v2 → s.remove_instantaneous.Wf v2) ∧
    (∀ a b : StateSeq, a.Wf v2 → b.Wf v2 → (a.union b).Wf v2) :=
  ⟨wf_empty v2,
   fun s r ii j w hs => wf_append v2 edge_len s r ii j w hs,
   fun s hs => wf_remove v2 s hs,
   fun a b ha hb => wf_union v2 a b ha hb⟩

/-- Witness for C10 at concrete inputs: the invariant after appending
one match of `fEx` to the empty set, after removal, and after a
union. -/
theorem claim_C10_witness :
    (StateSeq.empty.append false 1 fEx [0] 0 1).Wf false ∧
    sExA.remove_instantaneous.Wf false ∧
    (sExA.union sExB).Wf false :=
  ⟨(claim_C10 false 1).2.1 StateSeq.empty fEx [0] 0 1 (by decide),
   (claim_C10 false 1).2.2.1 sExA (by decide),
   (claim_C10 false 1).2.2.2 sExA sExB (by decide) (by decide)⟩

/-- Mapping the state letters of a string keeps the letter count. -/
theorem mapM_fromChar_length :
    ∀ (cs : List Char) (l : List ℤ),
      cs.mapM StateTypes.fromChar = some l → l.length = cs.length := by
  intro cs
  induction cs with
  | nil =>
      intro l h
      simp only [List.mapM_nil, pure, Option.some.injEq] at h
      simp [← h]
  | cons c cs ih =>
      intro l h
      simp only [List.mapM_cons] at h
      cases hc : StateTypes.fromChar c with
      | none => rw [hc] at h; simp at h
      | some v =>
          rw [hc] at h
          cases hcs : cs.mapM StateTypes.fromChar with
          | none => rw [hcs] at h; simp at h
          | some tl =>
              rw [hcs] at h
              have h3 : v :: tl = l := by simpa using h
              simp [← h3, ih tl hcs]

/-- A string with a letter outside the state enumeration has no state
translation. -/
theorem mapM_fromChar_none :
    ∀ (cs : List Char) (c : Char), c ∈ cs →
      StateTypes.fromChar c = none →
      cs.mapM StateTypes.fromChar = none := by
  intro cs
  induction cs with
  | nil => intro c h; cases h
  | cons a cs ih =>
      intro c hmem hc
      simp only [List.mapM_cons]
      rcases List.mem_cons.mp hmem with h | h
      · rw [← h, hc]; rfl
      · cases ha : StateTypes.fromChar a with
        | none => rfl
        | some v => rw [ih c h hc]; rfl

/-- C9.  Constructing a `Single` or `Triple` pattern from a string
containing a character outside `{o, g, s, p, c, d}` (case-insensitive),
or whose length does not match that pattern's width + 1 (2 for
`Single`, 4 for `Triple`), raises at construction time (a `KeyError`
from the state lookup or a `ValueError` from tuple unpacking) rather
than being silently ignored. -/
theorem claim_C9 (s : String) :
    ((∃ c ∈ s.data, StateTypes.fromChar c = none) ∨ s.length ≠ 2 →
      ∃ e, Single.init s = Except.error e) ∧
    ((∃ c ∈ s.data, StateTypes.fromChar c = none) ∨ s.length ≠ 4 →
      ∃ e, Triple.init s = Except.error e) := by
  cases hf : StateTypes.fromStr s with
  | none =>
      constructor <;> intro _ <;>
        exact ⟨InitError.unknownState, by
          simp [Single.init, Triple.init, hf]⟩
  | some l =>
      have hf2 : s.data.mapM StateTypes.fromChar = some l := hf
      have hlen : l.length = s.length :=
        mapM_fromChar_length s.data l hf2
      have hgood : ∀ c ∈ s.data, StateTypes.fromChar c ≠ none := by
        intro c hc hnone
        rw [mapM_fromChar_none s.data c hc hnone] at hf2
        cases hf2
      constructor
      · intro hbad
        have hne2 : s.length ≠ 2 := by
          rcases hbad with ⟨c, hc, hnone⟩ | h
          · exact absurd hnone (hgood c hc)
          · exact h
        refine ⟨InitError.widthMismatch, ?_⟩
        rw [Single.init, hf]
        match l, hlen with
        | [], _ => rfl
        | [a], _ => rfl
        | [a, b], hl => exact absurd hl.symm hne2
        | a :: b :: c :: tl, _ => rfl
      · intro hbad
        have hne4 : s.length ≠ 4 := by
          rcases hbad with ⟨c, hc, hnone⟩ | h
          · exact absurd hnone (hgood c hc)
          · exact h
        refine ⟨InitError.widthMismatch, ?_⟩
        rw [Triple.init, hf]
        match l, hlen with
        | [], _ => rfl
        | [a], _ => rfl
        | [a, b], _ => rfl
        | [a, b, c], _ => rfl
        | [a, b, c, d], hl => exact absurd hl.symm hne4
        | a :: b :: c :: d :: e :: tl, _ => rfl

/-- Witness for C9: an unknown letter (`"gx"`) fails both
constructors; the valid-letter string `"gggg"` of length 4 fails
`Single` (width mismatch) and the valid-letter string `"gs"` of
length 2 fails `Triple`. -/
theorem claim_C9_witness :
    (∃ e, Single.init "gggg" = Except.error e) ∧
    (∃ e, Triple.init "gs" = Except.error e) ∧
    (∃ e, Single.init "gx" = Except.error e) ∧
    (∃ e, Triple.init "gx" = Except.error e) :=
  ⟨(claim_C9 "gggg").1 (Or.inr (by decide)),
   (claim_C9 "gs").2 (Or.inr (by decide)),
   (claim_C9 "gx").1 (Or.inl ⟨'x', by decide, by decide⟩),
   (claim_C9 "gx").2 (Or.inl ⟨'x', by decide, by decide⟩)⟩

/-- Counterexample to C8 as stated: under history version 1 the
`dornt` attribute does not exist, so accessing `reorientation` on an
occurrence set with zero occurrences raises `AttributeError`
(modelled by `Except.error`) instead of returning the `NaN` record. -/
theorem claim_C8_cex :
    StateSeq.empty.reorientation false = Except.error () := rfl

/-- C8 (amended).  For an occurrence set with zero occurrences,
`duration`, `elongation` and `velocity` evaluate to the `NaN` record
without raising; `reorientation` does so too when orientation data
exists (history version 2), while under version 1 accessing it raises
`AttributeError` even on an empty set. -/
theorem claim_C8 (v2 : Bool) (s : StateSeq) (hwf : s.Wf v2)
    (hnum : s.num = 0) :
    s.duration = none ∧ s.elongation = none ∧ s.velocity = none ∧
    (v2 = true → s.reorientation true = Except.ok none) := by
  obtain ⟨w1, w2, w3, w4, w5, w6, w7, w8, w9, w10, w11, w12, w13, w14,
    hvt, hvf⟩ := hwf
  have hdt : s.dtime.length = 0 := by rw [w5, hnum]
  have hdl : s.dlen_um.length = 0 := by rw [w4, hnum]
  have hv : s.vel.length = 0 := by rw [w6, hnum]
  refine ⟨?_, ?_, ?_, ?_⟩
  · simp [StateSeq.duration, statsOf, hdt]
  · simp [StateSeq.elongation, statsOf, hdl]
  · simp [StateSeq.velocity, statsOf, hv]
  · intro h2
    have hdo : s.dornt.length = 0 := by rw [(hvt h2).2.2.2.2, hnum]
    simp [StateSeq.reorientation, statsOf, hdo]

/-- Witness for C8 at the freshly constructed empty occurrence set
under history version 2. -/
theorem claim_C8_witness :
    StateSeq.empty.duration = none ∧ StateSeq.empty.elongation = none ∧
    StateSeq.empty.velocity = none ∧
    (true = true → StateSeq.empty.reorientation true = Except.ok none) :=
  claim_C8 true StateSeq.empty (by decide) rfl

/-- C2.  The combined `g0s` duration of `report_cycle_correlated`:
when the growth-then-shrink set and the growth-pause-shrink set both
have nonzero count and defined means, it is the count-weighted mean
`(n_gs·mean_gs + n_gps·mean_gps) / (n_gs + n_gps)` with pooled
deviation `sqrt((n_gs·std_gs)² + (n_gps·std_gps)²) / (n_gs + n_gps)`
(carried as its square); in every other case — either count zero, or
either mean `NaN` — the whole correlated-cycle `g0s` duration is the
`NaN` record. -/
theorem claim_C2 (v2 : Bool) (gs gps : StateSeq) (hgs : gs.Wf v2)
    (hgps : gps.Wf v2) :
    (∀ dgs dgps : StatsVal, gs.duration = some dgs →
      gps.duration = some dgps →
      g0sDuration gs gps =
        some ⟨((gs.num : ℚ) * dgs.avg + (gps.num : ℚ) * dgps.avg) /
                ((gs.num : ℚ) + (gps.num : ℚ)),
              ((gs.num : ℚ) ^ 2 * dgs.stdSq +
                 (gps.num : ℚ) ^ 2 * dgps.stdSq) /
                ((gs.num : ℚ) + (gps.num : ℚ)) ^ 2,
              "sec"⟩) ∧
    (gs.num = 0 ∨ gps.num = 0 ∨ gs.duration = none ∨
      gps.duration = none → g0sDuration gs gps = none) := by
  have hdt_gs : gs.dtime.length = gs.num := hgs.2.2.2.2.1
  have hdt_gps : gps.dtime.length = gps.num := hgps.2.2.2.2.1
  constructor
  · intro dgs dgps h1 h2
    have hne : gs.dtime.length ≠ 0 := by
      intro h0
      simp [StateSeq.duration, statsOf, h0] at h1
    have hne2 : gps.dtime.length ≠ 0 := by
      intro h0
      simp [StateSeq.duration, statsOf, h0] at h2
    have hngs : gs.num ≠ 0 := by rw [← hdt_gs]; exact hne
    have hngps : gps.num ≠ 0 := by rw [← hdt_gps]; exact hne2
    have hsum : gs.num + gps.num ≠ 0 := by omega
    have hcast : ((gs.num + gps.num : ℕ) : ℚ) =
        (gs.num : ℚ) + (gps.num : ℚ) := by push_cast; ring
    unfold g0sDuration
    rw [h1, h2]
    simp [hsum, hcast]
  · intro hcase
    have key : gs.duration = none ∨ gps.duration = none := by
      rcases hcase with h | h | h | h
      · left
        have h0 : gs.dtime.length = 0 := by rw [hdt_gs, h]
        simp [StateSeq.duration, statsOf, h0]
      · right
        have h0 : gps.dtime.length = 0 := by rw [hdt_gps, h]
        simp [StateSeq.duration, statsOf, h0]
      · exact Or.inl h
      · exact Or.inr h
    rcases key with h | h
    · simp [g0sDuration, h]
    · cases hgsd : gs.duration <;> simp [g0sDuration, hgsd, h]

/-- Witness for C2: two singleton occurrence sets with durations 5
and 10 combine to the count-weighted `g0s` record. -/
theorem claim_C2_witness :
    g0sDuration sExA sExB =
      some ⟨((sExA.num : ℚ) * (5 : ℚ) + (sExB.num : ℚ) * (10 : ℚ)) /
              ((sExA.num : ℚ) + (sExB.num : ℚ)),
            ((sExA.num : ℚ) ^ 2 * (0 : ℚ) +
               (sExB.num : ℚ) ^ 2 * (0 : ℚ)) /
              ((sExA.num : ℚ) + (sExB.num : ℚ)) ^ 2,
            "sec"⟩ :=
  (claim_C2 false sExA sExB (by decide) (by decide)).1
    ⟨5, 0, "sec"⟩ ⟨10, 0, "sec"⟩
    (by norm_num [sExA, StateSeq.duration, statsOf, listMean, listVar])
    (by norm_num [sExB, StateSeq.duration, statsOf, listMean, listVar])

/-- Version-2 variant of `sExA`: the same single occurrence with the
counter and orientation arrays populated. -/
def sExA2 : StateSeq :=
  { sExA with
    ngrw := [5]
    nshr := [2]
    dngrw := [1]
    dnshr := [0]
    dornt := [1] }

/-- Version-2 variant of `sExB`. -/
def sExB2 : StateSeq :=
  { sExB with
    ngrw := [7]
    nshr := [3]
    dngrw := [2]
    dnshr := [1]
    dornt := [0] }

/-- C4.  The `|` union of any two occurrence sets has occurrence count
`A.num() + B.num()`; and when both operands are nonempty the mean of
every per-occurrence derived field — `dtime`, `dlen_um`, `vel`,
`dlen`, and under history version 2 also `dornt`, `dngrw`, `dnshr` —
over the union is the count-weighted mean of the operands' fields. -/
theorem claim_C4 (v2 : Bool) (a b : StateSeq) (ha : a.Wf v2)
    (hb : b.Wf v2) :
    (a.union b).num = a.num + b.num ∧
    (a.num ≠ 0 → b.num ≠ 0 →
      (listMeanO (a.union b).dtime =
        some (((a.num : ℚ) * listMean a.dtime +
                (b.num : ℚ) * listMean b.dtime) /
              ((a.num : ℚ) + (b.num : ℚ))) ∧
       listMeanO (a.union b).dlen_um =
        some (((a.num : ℚ) * listMean a.dlen_um +
                (b.num : ℚ) * listMean b.dlen_um) /
              ((a.num : ℚ) + (b.num : ℚ))) ∧
       listMeanO (a.union b).vel =
        some (((a.num : ℚ) * listMean a.vel +
                (b.num : ℚ) * listMean b.vel) /
              ((a.num : ℚ) + (b.num : ℚ))) ∧
       listMeanOZ (a.union b).dlen =
        some (((a.num : ℚ) * listMeanZ a.dlen +
                (b.num : ℚ) * listMeanZ b.dlen) /
              ((a.num : ℚ) + (b.num : ℚ)))) ∧
      (v2 = true →
       listMeanO (a.union b).dornt =
        some (((a.num : ℚ) * listMean a.dornt +
                (b.num : ℚ) * listMean b.dornt) /
              ((a.num : ℚ) + (b.num : ℚ))) ∧
       listMeanOZ (a.union b).dngrw =
        some (((a.num : ℚ) * listMeanZ a.dngrw +
                (b.num : ℚ) * listMeanZ b.dngrw) /
              ((a.num : ℚ) + (b.num : ℚ))) ∧
       listMeanOZ (a.union b).dnshr =
        some (((a.num : ℚ) * listMeanZ a.dnshr +
                (b.num : ℚ) * listMeanZ b.dnshr) /
              ((a.num : ℚ) + (b.num : ℚ))))) := by
  obtain ⟨a1, a2, a3, a4, a5, a6, a7, a8, a9, a10, a11, a12, a13, a14,
    avt, avf⟩ := ha
  obtain ⟨b1, b2, b3, b4, b5, b6, b7, b8, b9, b10, b11, b12, b13, b14,
    bvt, bvf⟩ := hb
  constructor
  · simp [StateSeq.union, StateSeq.num, List.length_append]
  · intro hna hnb
    refine ⟨⟨?_, ?_, ?_, ?_⟩, ?_⟩
    · exact union_field_mean a.num b.num a.dtime b.dtime a5 b5 hna hnb
    · exact union_field_mean a.num b.num a.dlen_um b.dlen_um a4 b4
        hna hnb
    · exact union_field_mean a.num b.num a.vel b.vel a6 b6 hna hnb
    · exact union_field_meanZ a.num b.num a.dlen b.dlen a3 b3 hna hnb
    · intro hv2
      obtain ⟨ang, ans, adg, ads, ado⟩ := avt hv2
      obtain ⟨bng, bns, bdg, bds, bdo⟩ := bvt hv2
      exact
        ⟨union_field_mean a.num b.num a.dornt b.dornt ado bdo hna hnb,
         union_field_meanZ a.num b.num a.dngrw b.dngrw adg bdg hna hnb,
         union_field_meanZ a.num b.num a.dnshr b.dnshr ads bds hna hnb⟩

/-- Witness for C4 at the two singleton version-2 fixtures, exercising
the count, a float field and a version-2 field. -/
theorem claim_C4_witness :
    (sExA2.union sExB2).num = sExA2.num + sExB2.num ∧
    listMeanO (sExA2.union sExB2).dtime =
      some (((sExA2.num : ℚ) * listMean sExA2.dtime +
              (sExB2.num : ℚ) * listMean sExB2.dtime) /
            ((sExA2.num : ℚ) + (sExB2.num : ℚ))) ∧
    listMeanO (sExA2.union sExB2).dornt =
      some (((sExA2.num : ℚ) * listMean sExA2.dornt +
              (sExB2.num : ℚ) * listMean sExB2.dornt) /
            ((sExA2.num : ℚ) + (sExB2.num : ℚ))) :=
  ⟨(claim_C4 true sExA2 sExB2 (by decide) (by decide)).1,
   (((claim_C4 true sExA2 sExB2 (by decide) (by decide)).2
      (by decide) (by decide)).1).1,
   ((((claim_C4 true sExA2 sExB2 (by decide) (by decide)).2
      (by decide) (by decide)).2) rfl).1⟩

/-- C7.  Every occurrence index `i` selected by `set_from_records`
(width 1 for `Single`, width 3 for `Triple`) satisfies
`i + w < stream_length`, so that every access the append step makes at
index `i + w` — time, length, counters, orientation, position,
distances — is within the stream's array bounds (the arrays share one
length under the stream schema invariant). -/
theorem claim_C7 (fr toSt im1 im2 : ℤ) (lim : DistLim)
    (f : FilamentHistory) (v2 : Bool) (hwf : f.Wf v2) :
    (∀ i ∈ Single.sel fr toSt lim f,
      i + 1 < f.state_fr.length ∧ i + 1 < f.time.length ∧
      i + 1 < f.length.length ∧ i + 1 < f.pos.length ∧
      i + 1 < f.dist0.length ∧
      (v2 = true → i + 1 < f.ngrw.length ∧ i + 1 < f.nshr.length ∧
        i + 1 < f.ornt.length)) ∧
    (∀ i ∈ Triple.sel fr im1 im2 toSt lim f,
      i + 3 < f.state_fr.length ∧ i + 3 < f.time.length ∧
      i + 3 < f.length.length ∧ i + 3 < f.pos.length ∧
      i + 3 < f.dist0.length ∧
      (v2 = true → i + 3 < f.ngrw.length ∧ i + 3 < f.nshr.length ∧
        i + 3 < f.ornt.length)) := by
  obtain ⟨q1, q2, q3, q4, q5, q6, q7, q8, q9, qvt, qvf⟩ := hwf
  constructor
  · intro i hi
    have h1 : i < f.state_fr.length - 1 :=
      List.mem_range.mp (List.mem_filter.mp hi).1
    refine ⟨by omega, by omega, by omega, by omega, by omega, ?_⟩
    intro h2
    obtain ⟨o1, o2, o3⟩ := qvt h2
    exact ⟨by omega, by omega, by omega⟩
  · intro i hi
    have h1 : i < f.state_fr.length - 3 :=
      List.mem_range.mp (List.mem_filter.mp hi).1
    refine ⟨by omega, by omega, by omega, by omega, by omega, ?_⟩
    intro h2
    obtain ⟨o1, o2, o3⟩ := qvt h2
    exact ⟨by omega, by omega, by omega⟩

/-- Witness for C7: the single match of `fEx` at index 0 stays in
bounds. -/
theorem claim_C7_witness :
    0 + 1 < fEx.state_fr.length ∧ 0 + 1 < fEx.time.length :=
  have h := (claim_C7 0 1 0 0 defaultLim fEx false (by decide)).1
    0 (by decide)
  ⟨h.1, h.2.1⟩

/-- Membership in the surviving rows of a run decomposes into a
stream, a selected index, and a nonzero duration. -/
theorem runRows_mem (v2 : Bool) (el : ℚ) (w : ℕ)
    (sel : FilamentHistory → List ℕ) (records : List FilamentHistory)
    (o : Occ) (ho : o ∈ runRows v2 el w sel records) :
    o.dtime ≠ 0 ∧ ∃ jf ∈ records.enum, ∃ i ∈ sel jf.2,
      o = mkOcc v2 el jf.2 jf.1 w i := by
  obtain ⟨hmem, hdec⟩ := List.mem_filter.mp ho
  refine ⟨by simpa using hdec, ?_⟩
  obtain ⟨jf, hjf, hmap⟩ := List.mem_flatMap.mp hmem
  obtain ⟨i, hi, rfl⟩ := List.mem_map.mp hmap
  exact ⟨jf, hjf, i, hi, rfl⟩

/-- After a full run no surviving occurrence has zero duration, and
each surviving row's stored duration is the time difference of its
source stream, which is therefore nonzero. -/
theorem run_no_instantaneous (v2 : Bool) (el : ℚ) (w : ℕ)
    (sel : FilamentHistory → List ℕ) (records : List FilamentHistory) :
    (∀ d ∈ (setFromRecordsWith v2 el w sel records).dtime, d ≠ 0) ∧
    (∀ o ∈ runRows v2 el w sel records,
      o.dtime ≠ 0 ∧ ∀ f2, records[o.fi]? = some f2 →
        f2.time.getD (o.ind + w) 0 ≠ f2.time.getD o.ind 0) := by
  have hcorr := corresponds_run v2 el w sel records
  constructor
  · intro d hd
    rw [hcorr.2.2.2.2.1] at hd
    obtain ⟨o, ho, rfl⟩ := List.mem_map.mp hd
    exact (runRows_mem v2 el w sel records o ho).1
  · intro o ho
    obtain ⟨hne, jf, hjf, i, hi, rfl⟩ :=
      runRows_mem v2 el w sel records o ho
    refine ⟨hne, ?_⟩
    intro f2 hf2
    have hget : records[jf.1]? = some jf.2 :=
      List.mem_enum_iff_getElem?.mp hjf
    have hfi : (mkOcc v2 el jf.2 jf.1 w i).fi = jf.1 := rfl
    rw [hfi] at hf2
    have hf2' : f2 = jf.2 := by
      have := hget.symm.trans hf2
      exact (Option.some.inj this).symm
    subst hf2'
    intro heq
    apply hne
    have hind : (mkOcc v2 el jf.2 jf.1 w i).ind = i := rfl
    rw [hind] at heq
    show jf.2.time.getD (i + w) 0 - jf.2.time.getD i 0 = 0
    rw [heq, sub_self]

/-- C6.  After `set_from_records` completes (all streams appended and
`remove_instantaneous` run), no surviving occurrence has
`time[i+w] == time[i]`: every occurrence whose `dtime` is numerically
zero is discarded, consistently from every per-occurrence data array
(the run corresponds, array by array, to the rows surviving the
nonzero-`dtime` filter). -/
theorem claim_C6 (v2 : Bool) (el : ℚ) (records : List FilamentHistory)
    (lim : DistLim) (fr toSt im1 im2 : ℤ) :
    ((∀ d ∈ (Single.setFromRecords v2 el fr toSt records lim).dtime,
        d ≠ 0) ∧
      Corresponds v2 (Single.setFromRecords v2 el fr toSt records lim)
        (runRows v2 el 1 (Single.sel fr toSt lim) records) ∧
      (∀ o ∈ runRows v2 el 1 (Single.sel fr toSt lim) records,
        o.dtime ≠ 0 ∧ ∀ f2, records[o.fi]? = some f2 →
          f2.time.getD (o.ind + 1) 0 ≠ f2.time.getD o.ind 0)) ∧
    ((∀ d ∈ (Triple.setFromRecords v2 el fr im1 im2 toSt records
        lim).dtime, d ≠ 0) ∧
      Corresponds v2
        (Triple.setFromRecords v2 el fr im1 im2 toSt records lim)
        (runRows v2 el 3 (Triple.sel fr im1 im2 toSt lim) records) ∧
      (∀ o ∈ runRows v2 el 3 (Triple.sel fr im1 im2 toSt lim) records,
        o.dtime ≠ 0 ∧ ∀ f2, records[o.fi]? = some f2 →
          f2.time.getD (o.ind + 3) 0 ≠ f2.time.getD o.ind 0)) :=
  ⟨⟨(run_no_instantaneous v2 el 1 (Single.sel fr toSt lim) records).1,
    corresponds_run v2 el 1 (Single.sel fr toSt lim) records,
    (run_no_instantaneous v2 el 1 (Single.sel fr toSt lim) records).2⟩,
   ⟨(run_no_instantaneous v2 el 3 (Triple.sel fr im1 im2 toSt lim)
       records).1,
    corresponds_run v2 el 3 (Triple.sel fr im1 im2 toSt lim) records,
    (run_no_instantaneous v2 el 3 (Triple.sel fr im1 im2 toSt lim)
       records).2⟩⟩

/-- Witness for C6: the surviving duration 5 of the `fEx` run is
nonzero. -/
theorem claim_C6_witness : (5 : ℚ) ≠ 0 :=
  (claim_C6 false 1 [fEx] defaultLim 0 1 0 0).1.1 5
    (by with_unfolding_all decide)

/-- For `0 ≤ m`, the regions `[0, m)` and `[m, +∞)` together test
exactly like the default region `[0, +∞)`. -/
theorem region_or (m : ℚ) (hm : 0 ≤ m) (d : ℚ) :
    (inRegion (0, some m) d || inRegion (m, none) d) =
      inRegion defaultLim d := by
  simp only [inRegion, defaultLim]
  by_cases h1 : (0 : ℚ) ≤ d
  · by_cases h2 : d < m
    · simp [h1, h2, not_le.mpr h2]
    · simp [h1, h2, not_lt.mp h2]
  · have hnm : ¬m ≤ d := fun h => h1 (le_trans hm h)
    simp [h1, hnm]

/-- The regions `[0, m)` and `[m, +∞)` are disjoint. -/
theorem region_disjoint (m d : ℚ) :
    ¬(inRegion (0, some m) d = true ∧ inRegion (m, none) d = true) := by
  rintro ⟨h1, h2⟩
  simp only [inRegion, Bool.and_eq_true, decide_eq_true_eq] at h1 h2
  exact absurd h2.1 (not_le.mpr h1.2)

/-- The candidate indices selected under the two half regions permute
to the indices selected under the default region, for any base state
predicate. -/
theorem sel_split_generic (n : ℕ) (base : ℕ → Bool) (d : ℕ → ℚ)
    (m : ℚ) (hm : 0 ≤ m) :
    List.Perm
      (((List.range n).filter fun i =>
          base i && inRegion (0, some m) (d i)) ++
       ((List.range n).filter fun i =>
          base i && inRegion (m, none) (d i)))
      ((List.range n).filter fun i =>
        base i && inRegion defaultLim (d i)) := by
  apply filter_disjoint_perm
  · intro i hi
    rw [Bool.and_eq_true, Bool.and_eq_true] at hi
    exact region_disjoint m (d i) ⟨hi.1.2, hi.2.2⟩
  · intro i
    rw [← Bool.and_or_distrib_left, region_or m hm (d i)]

/-- Region split of the `Single` per-stream selection. -/
theorem single_sel_split (fr toSt : ℤ) (m : ℚ) (hm : 0 ≤ m)
    (f : FilamentHistory) :
    List.Perm
      (Single.sel fr toSt (0, some m) f ++ Single.sel fr toSt (m, none) f)
      (Single.sel fr toSt defaultLim f) :=
  sel_split_generic (f.state_fr.length - 1)
    (fun i => decide (f.state_fr.getD i 0 = fr) &&
      decide (f.state_to.getD i 0 = toSt))
    (fun i => f.dist0.getD i 0) m hm

/-- Region split of the `Triple` per-stream selection. -/
theorem triple_sel_split (fr im1 im2 toSt : ℤ) (m : ℚ) (hm : 0 ≤ m)
    (f : FilamentHistory) :
    List.Perm
      (Triple.sel fr im1 im2 toSt (0, some m) f ++
       Triple.sel fr im1 im2 toSt (m, none) f)
      (Triple.sel fr im1 im2 toSt defaultLim f) :=
  sel_split_generic (f.state_fr.length - 3)
    (fun i => decide (f.state_fr.getD i 0 = fr) &&
      decide (f.state_to.getD i 0 = im1) &&
      decide (f.state_to.getD (i + 1) 0 = im2) &&
      decide (f.state_to.getD (i + 2) 0 = toSt))
    (fun i => f.dist0.getD i 0) m hm

/-- The surviving rows of the two half-region `Single` runs permute to
those of the unfiltered run. -/
theorem runRows_split_single (v2 : Bool) (el : ℚ) (fr toSt : ℤ)
    (records : List FilamentHistory) (m : ℚ) (hm : 0 ≤ m) :
    List.Perm
      (runRows v2 el 1 (Single.sel fr toSt (0, some m)) records ++
       runRows v2 el 1 (Single.sel fr toSt (m, none)) records)
      (runRows v2 el 1 (Single.sel fr toSt defaultLim) records) := by
  unfold runRows
  rw [← List.filter_append]
  apply List.Perm.filter
  unfold rowsFrom
  apply flatMap_perm_append
  intro jf
  rw [← List.map_append]
  exact List.Perm.map _ (single_sel_split fr toSt m hm jf.2)

/-- The surviving rows of the two half-region `Triple` runs permute to
those of the unfiltered run. -/
theorem runRows_split_triple (v2 : Bool) (el : ℚ) (fr im1 im2 toSt : ℤ)
    (records : List FilamentHistory) (m : ℚ) (hm : 0 ≤ m) :
    List.Perm
      (runRows v2 el 3 (Triple.sel fr im1 im2 toSt (0, some m)) records ++
       runRows v2 el 3 (Triple.sel fr im1 im2 toSt (m, none)) records)
      (runRows v2 el 3 (Triple.sel fr im1 im2 toSt defaultLim) records)
    := by
  unfold runRows
  rw [← List.filter_append]
  apply List.Perm.filter
  unfold rowsFrom
  apply flatMap_perm_append
  intro jf
  rw [← List.map_append]
  exact List.Perm.map _ (triple_sel_split fr im1 im2 toSt m hm jf.2)

/-- Region-filter exclusivity for a `Single` pattern: the union of the
runs over `[0, m)` and `[m, +∞)` holds, array by array, the surviving
rows of the two half runs, whose multiset equals (up to order) that of
the run with no region filter (`[0, +∞)`). -/
def singleRegionSplit (v2 : Bool) (el : ℚ) (fr toSt : ℤ)
    (records : List FilamentHistory) (m : ℚ) : Prop :=
  List.Perm
    (runRows v2 el 1 (Single.sel fr toSt (0, some m)) records ++
     runRows v2 el 1 (Single.sel fr toSt (m, none)) records)
    (runRows v2 el 1 (Single.sel fr toSt defaultLim) records) ∧
  Corresponds v2
    ((Single.setFromRecords v2 el fr toSt records (0, some m)).union
      (Single.setFromRecords v2 el fr toSt records (m, none)))
    (runRows v2 el 1 (Single.sel fr toSt (0, some m)) records ++
     runRows v2 el 1 (Single.sel fr toSt (m, none)) records) ∧
  Corresponds v2
    (Single.setFromRecords v2 el fr toSt records defaultLim)
    (runRows v2 el 1 (Single.sel fr toSt defaultLim) records)

/-- Region-filter exclusivity for a `Triple` pattern, as in
`singleRegionSplit`. -/
def tripleRegionSplit (v2 : Bool) (el : ℚ) (fr im1 im2 toSt : ℤ)
    (records : List FilamentHistory) (m : ℚ) : Prop :=
  List.Perm
    (runRows v2 el 3 (Triple.sel fr im1 im2 toSt (0, some m)) records ++
     runRows v2 el 3 (Triple.sel fr im1 im2 toSt (m, none)) records)
    (runRows v2 el 3 (Triple.sel fr im1 im2 toSt defaultLim) records) ∧
  Corresponds v2
    ((Triple.setFromRecords v2 el fr im1 im2 toSt records
        (0, some m)).union
      (Triple.setFromRecords v2 el fr im1 im2 toSt records (m, none)))
    (runRows v2 el 3 (Triple.sel fr im1 im2 toSt (0, some m)) records ++
     runRows v2 el 3 (Triple.sel fr im1 im2 toSt (m, none)) records) ∧
  Corresponds v2
    (Triple.setFromRecords v2 el fr im1 im2 toSt records defaultLim)
    (runRows v2 el 3 (Triple.sel fr im1 im2 toSt defaultLim) records)

/-- C5.  For any pattern and the two disjoint covering regions
`R1 = [0, m)`, `R2 = [m, +∞)` (`0 ≤ m`, so the two cover the full
distance domain `[0, +∞)`), running `set_from_records` with limit `R1`
and with limit `R2` and taking the `|` union yields, up to occurrence
order, the same occurrence set as running with no region filter
(default `[0, +∞)`). -/
theorem claim_C5 (v2 : Bool) (el : ℚ) (fr toSt im1 im2 : ℤ)
    (records : List FilamentHistory) (m : ℚ) (hm : 0 ≤ m) :
    singleRegionSplit v2 el fr toSt records m ∧
    tripleRegionSplit v2 el fr im1 im2 toSt records m :=
  ⟨⟨runRows_split_single v2 el fr toSt records m hm,
    corresponds_union v2 _ _ _ _
      (corresponds_run v2 el 1 (Single.sel fr toSt (0, some m)) records)
      (corresponds_run v2 el 1 (Single.sel fr toSt (m, none)) records),
    corresponds_run v2 el 1 (Single.sel fr toSt defaultLim) records⟩,
   ⟨runRows_split_triple v2 el fr im1 im2 toSt records m hm,
    corresponds_union v2 _ _ _ _
      (corresponds_run v2 el 3
        (Triple.sel fr im1 im2 toSt (0, some m)) records)
      (corresponds_run v2 el 3
        (Triple.sel fr im1 im2 toSt (m, none)) records),
    corresponds_run v2 el 3
      (Triple.sel fr im1 im2 toSt defaultLim) records⟩⟩

/-- Witness for C5 at `m = 1` over the single-stream fixture. -/
theorem claim_C5_witness :
    singleRegionSplit false 1 0 1 [fEx] 1 ∧
    tripleRegionSplit false 1 0 0 0 1 [fEx] 1 :=
  claim_C5 false 1 0 1 0 0 [fEx] 1 (by norm_num)

/-- Concrete version-1 stream with a single connected→paused
transition at index 0 (`time = [0, 5]`, distance to center 0). -/
def fCP : FilamentHistory :=
  { time := [0, 5]
    state_fr := [3, 2]
    state_to := [2, 0]
    pos := [(0, 0, 0), (1, 0, 0)]
    ornt := []
    length := [10, 10]
    age := [0, 1]
    ngrw := []
    nshr := []
    cas := [[0, 0, 0, 0, 0, 0], [0, 0, 0, 0, 0, 0]]
    dist_plm := [1, 1]
    dist_nuc := [2, 2]
    dist0 := [0, 1] }

/-- Counterexample to C1 as stated: over a record set whose only
transition is connected→paused (which the elementary `cp` matcher
would find — the width-1 run below has one occurrence), the catalog's
`pauses` set is empty: `pauses = gp | sp` omits connected→paused, and
`PureS` has no `cp` field at all. -/
theorem claim_C1_cex :
    (mkEventColl false 1 [fCP] defaultLim).pauses.num = 0 ∧
    (Single.setFromRecords false 1 StateTypes.C StateTypes.P [fCP]
      defaultLim).num = 1 := by
  with_unfolding_all decide

/-- C1 (amended).  In the Category Catalog the base states are
composed from the width-1 occurrence sets as
`shrink = (g→s) | (p→s) | (c→s)` and `growth = (s→g) | (p→g) | (c→g)`,
but `pause = (g→p) | (s→p)` only: no connected→paused elementary
pattern exists in the catalog.  Stated content-wise: each composite's
data arrays hold exactly the surviving rows of the named elementary
runs, concatenated. -/
theorem claim_C1 (v2 : Bool) (el : ℚ) (records : List FilamentHistory)
    (lim : DistLim) :
    Corresponds v2 (mkEventColl v2 el records lim).shrinks
      ((runRows v2 el 1 (Single.sel StateTypes.G StateTypes.S lim)
          records ++
        runRows v2 el 1 (Single.sel StateTypes.P StateTypes.S lim)
          records) ++
       runRows v2 el 1 (Single.sel StateTypes.C StateTypes.S lim)
         records) ∧
    Corresponds v2 (mkEventColl v2 el records lim).grows
      ((runRows v2 el 1 (Single.sel StateTypes.S StateTypes.G lim)
          records ++
        runRows v2 el 1 (Single.sel StateTypes.P StateTypes.G lim)
          records) ++
       runRows v2 el 1 (Single.sel StateTypes.C StateTypes.G lim)
         records) ∧
    Corresponds v2 (mkEventColl v2 el records lim).pauses
      (runRows v2 el 1 (Single.sel StateTypes.G StateTypes.P lim)
         records ++
       runRows v2 el 1 (Single.sel StateTypes.S StateTypes.P lim)
         records) :=
  ⟨corresponds_union v2 _ _ _ _
     (corresponds_union v2 _ _ _ _
       (corresponds_run v2 el 1
         (Single.sel StateTypes.G StateTypes.S lim) records)
       (corresponds_run v2 el 1
         (Single.sel StateTypes.P StateTypes.S lim) records))
     (corresponds_run v2 el 1
       (Single.sel StateTypes.C StateTypes.S lim) records),
   corresponds_union v2 _ _ _ _
     (corresponds_union v2 _ _ _ _
       (corresponds_run v2 el 1
         (Single.sel StateTypes.S StateTypes.G lim) records)
       (corresponds_run v2 el 1
         (Single.sel StateTypes.P StateTypes.G lim) records))
     (corresponds_run v2 el 1
       (Single.sel StateTypes.C StateTypes.G lim) records),
   corresponds_union v2 _ _ _ _
     (corresponds_run v2 el 1
       (Single.sel StateTypes.G StateTypes.P lim) records)
     (corresponds_run v2 el 1
       (Single.sel StateTypes.S StateTypes.P lim) records)⟩

/-- The Category Catalog built over no records: every occurrence set
empty. -/
def ecEmpty : EventColl := mkEventColl false 1 [] defaultLim

/-- The two cycle entries of the `report_by_type` summary each hold a
nested dict with a `duration` key and a `time_fraction` key; the
uncorrelated `time_fraction` and the correlated `g0s` one carry
growth/shrink/pause entries, and the correlated view carries `sg`,
`gs` and `g0s` sub-dicts. -/
def hasCycleDicts (v : RVal) : Prop :=
  (∃ u, getKey v "cycle_uncorrelated" = some u ∧
    (∃ x, getKey u "duration" = some x) ∧
    (∃ tf, getKey u "time_fraction" = some tf ∧
      (∃ a, getKey tf "growth" = some a) ∧
      (∃ a, getKey tf "shrink" = some a) ∧
      (∃ a, getKey tf "pause" = some a))) ∧
  (∃ c, getKey v "cycle_correlated" = some c ∧
    (∃ sgd, getKey c "sg" = some sgd ∧
      (∃ x, getKey sgd "duration" = some x) ∧
      (∃ x, getKey sgd "time_fraction" = some x)) ∧
    (∃ gsd, getKey c "gs" = some gsd ∧
      (∃ x, getKey gsd "duration" = some x) ∧
      (∃ x, getKey gsd "time_fraction" = some x)) ∧
    (∃ g0sd, getKey c "g0s" = some g0sd ∧
      (∃ x, getKey g0sd "duration" = some x) ∧
      (∃ tf, getKey g0sd "time_fraction" = some tf ∧
        (∃ a, getKey tf "growth" = some a) ∧
        (∃ a, getKey tf "shrink" = some a) ∧
        (∃ a, getKey tf "pause" = some a))))

/-- Counterexample to C3 as stated: for microtubule end `END = 0` the
summary's cycle entries are `None` (`res['cycle_uncorrelated'] =
... if self.END else None`), not nested dicts, for any region's
catalog — here the empty-records catalog. -/
theorem claim_C3_cex :
    getKey (reportByTypeCycles 0 ecEmpty) "cycle_uncorrelated" =
      some RVal.null ∧
    getKey (reportByTypeCycles 0 ecEmpty) "cycle_correlated" =
      some RVal.null := by
  constructor <;> rfl

/-- C3 (amended).  For end `END = 1` (any nonzero `END`), the summary
dict of `report_by_type` contains, for both the uncorrelated and the
correlated cycle view, a nested dict with keys `duration` and
`time_fraction` (growth/shrink/pause); for `END = 0` both entries are
`None`. -/
theorem claim_C3 (END : ℕ) (ec : EventColl) (h : END ≠ 0) :
    hasCycleDicts (reportByTypeCycles END ec) := by
  have h1 : getKey (reportByTypeCycles END ec) "cycle_uncorrelated" =
      some (reportCycleUncorrelated ec) := by
    simp [reportByTypeCycles, getKey, h]
  have h2 : getKey (reportByTypeCycles END ec) "cycle_correlated" =
      some (reportCycleCorrelated ec) := by
    simp only [reportByTypeCycles, getKey, ne_eq, h, not_false_eq_true,
      if_true]
    rfl
  refine ⟨⟨reportCycleUncorrelated ec, h1, ⟨_, rfl⟩,
    ⟨_, rfl, ⟨_, rfl⟩, ⟨_, rfl⟩, ⟨_, rfl⟩⟩⟩,
    ⟨reportCycleCorrelated ec, h2,
      ⟨_, rfl, ⟨_, rfl⟩, ⟨_, rfl⟩⟩,
      ⟨_, rfl, ⟨_, rfl⟩, ⟨_, rfl⟩⟩,
      ⟨_, rfl, ⟨_, rfl⟩, ⟨_, rfl, ⟨_, rfl⟩, ⟨_, rfl⟩, ⟨_, rfl⟩⟩⟩⟩⟩

/-- Witness for C3 at `END = 1` over the empty-records catalog. -/
theorem claim_C3_witness :
    hasCycleDicts (reportByTypeCycles 1 ecEmpty) :=
  claim_C3 1 ecEmpty (by decide)

end Cyto
